import Mathlib

/-!
# TApp: polling loop, worker launcher and signal flags (tapp.c)

A shallow embedding of the concurrency core of `tapp.c`:

* `on_signal`   : the signal handler writing the three global flags;
* `tapp_loop`   : the polling loop over a NULL-terminated list of probes;
* `tapp_spawn`  : the fixed-capacity thread launcher.

The three globals `g_tapp_sigterm`, `g_tapp_sigusr1`, `g_tapp_sigusr2` live in
`Env`, together with an arbitrary application state `world`.  Everything the C
code calls but does not define (the probes, `usleep`, `pthread_create`,
`pthread_join`) is a parameter acting on the whole `Env`, so a callee may write
the globals, as any C function can.  Each model keeps a ghost `trace` of the
calls it made, in chronological order; the trace is not visible to the callees.
-/

namespace TApp

/-- Status codes of `tlibc_error_code_t`.  The code under study compares a status
only with `E_TLIBC_NOERROR` and `E_TLIBC_WOULD_BLOCK` and assigns `E_TLIBC_ERRNO`
and `E_TLIBC_OUT_OF_MEMORY`; every remaining enumerator is `other code`. -/
inductive tlibc_error_code_t where
  | E_TLIBC_NOERROR
  | E_TLIBC_WOULD_BLOCK
  | E_TLIBC_ERRNO
  | E_TLIBC_OUT_OF_MEMORY
  | other (code : Int)
  deriving DecidableEq, Repr

open tlibc_error_code_t

/-- Process globals of tapp.c (lines 151-153) plus the rest of the program state. -/
structure Env (σ : Type) where
  g_tapp_sigterm : Bool
  g_tapp_sigusr1 : Bool
  g_tapp_sigusr2 : Bool
  world : σ
  deriving DecidableEq, Repr

/-- Signal number of SIGINT in `<signal.h>` (Linux). -/
def SIGINT : Int := 2
/-- Signal number of SIGTERM in `<signal.h>` (Linux). -/
def SIGTERM : Int := 15
/-- Signal number of SIGUSR1 in `<signal.h>` (Linux). -/
def SIGUSR1 : Int := 10
/-- Signal number of SIGUSR2 in `<signal.h>` (Linux). -/
def SIGUSR2 : Int := 12
/-- Value of EINTR in `<errno.h>` (Linux). -/
def EINTR : Int := 4

/-- The handler `on_signal` (lines 156-171): a switch on the signal number. -/
def on_signal {σ : Type} (sig : Int) (e : Env σ) : Env σ :=
  if sig = SIGINT ∨ sig = SIGTERM then { e with g_tapp_sigterm := true }
  else if sig = SIGUSR1 then { e with g_tapp_sigusr1 := true }
  else if sig = SIGUSR2 then { e with g_tapp_sigusr2 := true }
  else e

/-- Order on flag states: every flag set in `a` is set in `b`. -/
def FlagsLe {σ : Type} (a b : Env σ) : Prop :=
  (a.g_tapp_sigterm = true → b.g_tapp_sigterm = true) ∧
  (a.g_tapp_sigusr1 = true → b.g_tapp_sigusr1 = true) ∧
  (a.g_tapp_sigusr2 = true → b.g_tapp_sigusr2 = true)

/-! ## tapp_loop -/

/-- A probe: the pair `(func, arg)` of the variadic list, as the closure `func(arg)`
acting on the program state and returning a status. -/
abbrev tapp_func_t (σ : Type) := Env σ → tlibc_error_code_t × Env σ

/-- The library call `usleep(usec)`: returns its return code and the value of
`errno` after the call, and whatever happened to the program state meanwhile. -/
abbrev usleep_t (σ : Type) := Nat → Env σ → (Int × Int) × Env σ

/-- Ghost events recorded by the model of `tapp_loop`. -/
inductive LoopEvent where
  | pass
  | probe (pos : Nat) (r : tlibc_error_code_t)
  | sleep (usec : Nat)
  deriving DecidableEq, Repr

/-- Locals of `tapp_loop` that survive an iteration, the globals and the ghost trace. -/
structure LoopSt (σ : Type) where
  env : Env σ
  idle_count : Nat
  trace : List LoopEvent
  deriving DecidableEq, Repr

/-- The inner `for(;;)` of `tapp_loop` (lines 224-246), from the probe at position
`pos` on, with the current value of `proc_ret`.  The list holds the probes that
precede the terminating NULL. -/
def tapp_scan {σ : Type} : List (tapp_func_t σ) → Nat → tlibc_error_code_t → LoopSt σ →
    tlibc_error_code_t × LoopSt σ
  | [], _, proc_ret, s => (proc_ret, s)
  | func :: rest, pos, proc_ret, s =>
    let r := (func s.env).1
    let s1 : LoopSt σ :=
      { s with env := (func s.env).2, trace := s.trace ++ [LoopEvent.probe pos r] }
    if r = E_TLIBC_NOERROR then tapp_scan rest (pos + 1) E_TLIBC_NOERROR s1
    else if r ≠ E_TLIBC_WOULD_BLOCK then (r, s1)
    else tapp_scan rest (pos + 1) proc_ret s1

/-- One iteration of the outer loop body (lines 222-271).  The first component is
`some ret` when the body leaves through `goto done` with that `ret`. -/
def tapp_body {σ : Type} (idle_usec idle_limit : Nat) (probes : List (tapp_func_t σ))
    (usleep : usleep_t σ) (s : LoopSt σ) : Option tlibc_error_code_t × LoopSt σ :=
  let s0 : LoopSt σ := { s with trace := s.trace ++ [LoopEvent.pass] }
  let p := tapp_scan probes 0 E_TLIBC_WOULD_BLOCK s0
  let s1 := p.2
  match p.1 with
  | E_TLIBC_NOERROR => (none, { s1 with idle_count := 0 })
  | E_TLIBC_WOULD_BLOCK =>
    let c := (s1.idle_count + 1) % 2 ^ 32
    if c ≥ idle_limit then
      let u := usleep idle_usec s1.env
      let s2 : LoopSt σ :=
        { s1 with env := u.2, idle_count := c, trace := s1.trace ++ [LoopEvent.sleep idle_usec] }
      if u.1.1 ≠ 0 ∧ u.1.2 ≠ EINTR then (some E_TLIBC_ERRNO, s2)
      else (none, { s2 with idle_count := 0 })
    else (none, { s1 with idle_count := c })
  | r => (some r, s1)

/-- The label `done:` (lines 274-276): set the flag, then return. -/
def tapp_done {σ : Type} (s : LoopSt σ) : LoopSt σ :=
  { s with env := { s.env with g_tapp_sigterm := true } }

/-- Outcome of running `tapp_loop` for a bounded number of passes. -/
inductive Run (σ : Type) where
  | running (s : LoopSt σ)
  | returned (ret : tlibc_error_code_t) (s : LoopSt σ)
  deriving DecidableEq, Repr

/-- The outer `for(;!g_tapp_sigterm;)` of `tapp_loop` from a given loop state;
`fuel` bounds the number of passes, `Run.running` means the bound was reached
with the loop still going. -/
def tapp_loop_from {σ : Type} (idle_usec idle_limit : Nat) (probes : List (tapp_func_t σ))
    (usleep : usleep_t σ) : Nat → LoopSt σ → Run σ
  | 0, s =>
    if s.env.g_tapp_sigterm then Run.returned E_TLIBC_NOERROR (tapp_done s)
    else Run.running s
  | fuel + 1, s =>
    if s.env.g_tapp_sigterm then Run.returned E_TLIBC_NOERROR (tapp_done s)
    else
      match tapp_body idle_usec idle_limit probes usleep s with
      | (some ret, s1) => Run.returned ret (tapp_done s1)
      | (none, s1) => tapp_loop_from idle_usec idle_limit probes usleep fuel s1

/-- The function `tapp_loop(idle_usec, idle_limit, ...)` (lines 212-277): starts with
`idle_count = 0` and an empty trace. -/
def tapp_loop {σ : Type} (idle_usec idle_limit : Nat) (probes : List (tapp_func_t σ))
    (usleep : usleep_t σ) (fuel : Nat) (e : Env σ) : Run σ :=
  tapp_loop_from idle_usec idle_limit probes usleep fuel
    { env := e, idle_count := 0, trace := [] }

/-- Trace of a run. -/
def Run.trace {σ : Type} : Run σ → List LoopEvent
  | Run.running s => s.trace
  | Run.returned _ s => s.trace

/-- Program state of a run. -/
def Run.env {σ : Type} : Run σ → Env σ
  | Run.running s => s.env
  | Run.returned _ s => s.env

/-- Number of passes completed before each sleep of a trace: before the first sleep
and between two consecutive sleeps; `n` counts the passes seen since the last sleep. -/
def sleep_gaps : List LoopEvent → Nat → List Nat
  | [], _ => []
  | LoopEvent.pass :: t, n => sleep_gaps t (n + 1)
  | LoopEvent.sleep _ :: t, n => n :: sleep_gaps t 0
  | LoopEvent.probe _ _ :: t, n => sleep_gaps t n

/-- Number of passes at the end of a trace that no sleep has followed yet. -/
def pending_passes : List LoopEvent → Nat → Nat
  | [], n => n
  | LoopEvent.pass :: t, n => pending_passes t (n + 1)
  | LoopEvent.sleep _ :: t, _ => pending_passes t 0
  | LoopEvent.probe _ _ :: t, n => pending_passes t n

/-- Number of probe invocations in a trace. -/
def probe_calls : List LoopEvent → Nat
  | [] => 0
  | LoopEvent.probe _ _ :: t => probe_calls t + 1
  | _ :: t => probe_calls t

/-- Number of sleeps in a trace. -/
def sleep_calls : List LoopEvent → Nat
  | [] => 0
  | LoopEvent.sleep _ :: t => sleep_calls t + 1
  | _ :: t => sleep_calls t

/-- Number of passes started in a trace. -/
def pass_calls : List LoopEvent → Nat
  | [] => 0
  | LoopEvent.pass :: t => pass_calls t + 1
  | _ :: t => pass_calls t

/-- Bookkeeping invariant of an idle loop: every sleep so far came after exactly
`max 1 idle_limit` passes and, when `idle_limit` fits the 32-bit counter,
`idle_count` is the number of passes since the last sleep. -/
def IdleInv {σ : Type} (idle_limit : Nat) (s : LoopSt σ) : Prop :=
  (∀ g ∈ sleep_gaps s.trace 0, g = max 1 idle_limit) ∧
  (idle_limit < 2 ^ 32 →
    s.idle_count < max 1 idle_limit ∧
    pending_passes s.trace 0 = s.idle_count ∧
    sleep_calls s.trace * max 1 idle_limit + s.idle_count = pass_calls s.trace)

/-! ## tapp_spawn -/

/-- Ghost events recorded by the model of `tapp_spawn`: a call of `pthread_create`
for slot `i` of `tid_vec` with its outcome, a call of `pthread_join` on slot `i`. -/
inductive ThreadEvent where
  | create (i : Nat) (ok : Bool)
  | join (i : Nat)
  deriving DecidableEq, Repr

/-- The struct `tapp_worker_arg_t` (lines 280-284); `func` gives the status the
worker function returns for an id. -/
structure tapp_worker_arg_t where
  id : Nat
  func : Nat → tlibc_error_code_t

/-- The thread body `worker` (lines 286-293): the exit status of the thread. -/
def worker (arg : tapp_worker_arg_t) : tlibc_error_code_t :=
  arg.func arg.id

/-- The entry `tid_arg[i]` written at lines 312-313; the id is `(uint32_t)i`. -/
def tid_arg (i : Nat) (func : Nat → tlibc_error_code_t) : tapp_worker_arg_t :=
  { id := i % 2 ^ 32, func := func }

/-- The thread library as the launcher sees it.  `pthread_create i e` is the call
for slot `i`: whether it returned 0, and the program state after it.
`pthread_join i e` is the program state after waiting on slot `i` (the running
threads may have written the globals meanwhile). -/
structure Pthread (σ : Type) where
  pthread_create : Nat → Env σ → Bool × Env σ
  pthread_join : Nat → Env σ → Env σ

/-- Locals of `tapp_spawn`, the globals and the ghost trace. -/
structure SpawnSt (σ : Type) where
  env : Env σ
  tid_vec_num : Nat
  trace : List ThreadEvent
  deriving DecidableEq, Repr

/-- The creation loop (lines 309-319) with `n` iterations left, at index `i`.
The result is `false` when it leaves through `goto cancel_thread`.
`tid_vec_num` is a `uint16_t`. -/
def spawn_create {σ : Type} (pt : Pthread σ) : Nat → Nat → SpawnSt σ → Bool × SpawnSt σ
  | 0, _, s => (true, s)
  | n + 1, i, s =>
    let c := pt.pthread_create i s.env
    let s1 : SpawnSt σ :=
      { env := c.2, tid_vec_num := (s.tid_vec_num + 1) % 2 ^ 16,
        trace := s.trace ++ [ThreadEvent.create i c.1] }
    if c.1 then spawn_create pt n (i + 1) s1 else (false, s1)

/-- The join loop (lines 321-330) with `n` iterations left, at index `i`, with the
current `ret`.  The status read back is the exit status of the thread of slot `i`. -/
def spawn_join {σ : Type} (pt : Pthread σ) (func : Nat → tlibc_error_code_t) :
    Nat → Nat → tlibc_error_code_t → SpawnSt σ → tlibc_error_code_t × SpawnSt σ
  | 0, _, ret, s => (ret, s)
  | n + 1, i, ret, s =>
    let r := worker (tid_arg i func)
    let s1 : SpawnSt σ :=
      { s with env := pt.pthread_join i s.env, trace := s.trace ++ [ThreadEvent.join i] }
    if r ≠ E_TLIBC_NOERROR then
      spawn_join pt func n (i + 1) r { s1 with env := { s1.env with g_tapp_sigterm := true } }
    else spawn_join pt func n (i + 1) ret s1

/-- The loop after `cancel_thread:` (lines 335-339): joins, statuses dropped. -/
def spawn_cancel {σ : Type} (pt : Pthread σ) : Nat → Nat → SpawnSt σ → SpawnSt σ
  | 0, _, s => s
  | n + 1, i, s =>
    spawn_cancel pt n (i + 1)
      { s with env := pt.pthread_join i s.env, trace := s.trace ++ [ThreadEvent.join i] }

/-- The function `tapp_spawn(threads, func)` (lines 295-342).  `TAPP_THREADS` is the
constant of tapp.h, taken as a parameter. -/
def tapp_spawn {σ : Type} (TAPP_THREADS : Nat) (pt : Pthread σ) (threads : Nat)
    (func : Nat → tlibc_error_code_t) (e : Env σ) : tlibc_error_code_t × SpawnSt σ :=
  let s0 : SpawnSt σ := { env := e, tid_vec_num := 0, trace := [] }
  if threads ≥ TAPP_THREADS then (E_TLIBC_OUT_OF_MEMORY, s0)
  else
    let c := spawn_create pt threads 0 s0
    if c.1 then spawn_join pt func c.2.tid_vec_num 0 E_TLIBC_NOERROR c.2
    else
      let s1 : SpawnSt σ := { c.2 with env := { c.2.env with g_tapp_sigterm := true } }
      (E_TLIBC_ERRNO, spawn_cancel pt s1.tid_vec_num 0 s1)

/-! ## Concrete environments used in the examples -/

/-- Initial program state of the examples: no flag set, counter at 0. -/
def env0 : Env Nat :=
  { g_tapp_sigterm := false, g_tapp_sigusr1 := false, g_tapp_sigusr2 := false, world := 0 }

/-- A probe that always returns `E_TLIBC_WOULD_BLOCK` and touches nothing. -/
def idle_probe : tapp_func_t Nat := fun e => (E_TLIBC_WOULD_BLOCK, e)

/-- A probe that always returns `E_TLIBC_NOERROR` and touches nothing. -/
def busy_probe : tapp_func_t Nat := fun e => (E_TLIBC_NOERROR, e)

/-- A probe that always fails with the domain error `other 7`. -/
def failing_probe : tapp_func_t Nat := fun e => (other 7, e)

/-- A `usleep` that succeeds and counts its calls in `world`; during call number
`k` an external actor sets `g_tapp_sigterm`. -/
def usleep_term_at (k : Nat) : usleep_t Nat := fun _ e =>
  ((0, 0), { e with world := e.world + 1,
                    g_tapp_sigterm := e.g_tapp_sigterm || decide (e.world + 1 = k) })

/-- A probe counting its calls in `world`: `E_TLIBC_WOULD_BLOCK` on the first call,
`E_TLIBC_NOERROR` afterwards. -/
def warming_probe : tapp_func_t Nat := fun e =>
  (if e.world = 0 then E_TLIBC_WOULD_BLOCK else E_TLIBC_NOERROR, { e with world := e.world + 1 })

/-- A probe that returns `E_TLIBC_WOULD_BLOCK` while `world ≤ 1` and the domain
error `other 7` afterwards. -/
def late_failing_probe : tapp_func_t Nat := fun e =>
  (if e.world ≤ 1 then E_TLIBC_WOULD_BLOCK else other 7, e)

/-- Loop state reached by `[warming_probe, late_failing_probe]` with `idle_limit = 5`
after its first pass, in which both probes returned `E_TLIBC_WOULD_BLOCK`. -/
def after_idle_pass : LoopSt Nat :=
  { env := { env0 with world := 1 }, idle_count := 1,
    trace := [LoopEvent.pass, LoopEvent.probe 0 E_TLIBC_WOULD_BLOCK,
              LoopEvent.probe 1 E_TLIBC_WOULD_BLOCK] }

/-- Final loop state of the run with `idle_limit = 3`, the single probe `idle_probe`
and `usleep_term_at 2`: three passes, a sleep, three passes, the second sleep. -/
def idle_run_final (idle_usec : Nat) : LoopSt Nat :=
  { env := { env0 with g_tapp_sigterm := true, world := 2 }, idle_count := 0,
    trace := [LoopEvent.pass, LoopEvent.probe 0 E_TLIBC_WOULD_BLOCK,
              LoopEvent.pass, LoopEvent.probe 0 E_TLIBC_WOULD_BLOCK,
              LoopEvent.pass, LoopEvent.probe 0 E_TLIBC_WOULD_BLOCK,
              LoopEvent.sleep idle_usec,
              LoopEvent.pass, LoopEvent.probe 0 E_TLIBC_WOULD_BLOCK,
              LoopEvent.pass, LoopEvent.probe 0 E_TLIBC_WOULD_BLOCK,
              LoopEvent.pass, LoopEvent.probe 0 E_TLIBC_WOULD_BLOCK,
              LoopEvent.sleep idle_usec] }

/-- A thread library whose `pthread_create` fails exactly at slot `k` and whose
calls leave the program state alone. -/
def pthread_fail_at (k : Nat) : Pthread Nat :=
  { pthread_create := fun i e => (decide (i ≠ k), e), pthread_join := fun _ e => e }

/-- A thread library whose calls all succeed and leave the program state alone. -/
def pthread_ok : Pthread Nat :=
  { pthread_create := fun _ e => (true, e), pthread_join := fun _ e => e }

/-! ## Lemmas on the inner scan of `tapp_loop` -/

theorem tapp_scan_idle_count {σ : Type} (l : List (tapp_func_t σ)) :
    ∀ (pos : Nat) (pr : tlibc_error_code_t) (s : LoopSt σ),
      (tapp_scan l pos pr s).2.idle_count = s.idle_count := by
  induction l with
  | nil => intro pos pr s; rfl
  | cons f rest ih =>
    intro pos pr s
    simp only [tapp_scan]
    split_ifs <;> simp [ih]

theorem tapp_scan_append {σ : Type} (pre post : List (tapp_func_t σ)) :
    ∀ (pos : Nat) (pr : tlibc_error_code_t) (s : LoopSt σ),
      ((tapp_scan pre pos pr s).1 = E_TLIBC_NOERROR ∨
        (tapp_scan pre pos pr s).1 = E_TLIBC_WOULD_BLOCK) →
      tapp_scan (pre ++ post) pos pr s =
        tapp_scan post (pos + pre.length) (tapp_scan pre pos pr s).1 (tapp_scan pre pos pr s).2 := by
  induction pre with
  | nil => intro pos pr s _; simp [tapp_scan]
  | cons f rest ih =>
    intro pos pr s h
    have hlen : pos + (f :: rest).length = pos + 1 + rest.length := by
      simp only [List.length_cons]; omega
    rw [hlen]
    simp only [List.cons_append, tapp_scan] at h ⊢
    by_cases h1 : (f s.env).1 = E_TLIBC_NOERROR
    · simp only [h1, if_true] at h ⊢
      exact ih _ _ _ h
    · by_cases h2 : (f s.env).1 = E_TLIBC_WOULD_BLOCK
      · simp only [h2, if_false, ne_eq, not_true_eq_false, reduceCtorEq] at h ⊢
        exact ih _ _ _ h
      · simp [h1, h2] at h

/-- The events a scan appends are probe calls at the scanned positions, and they
determine the status the scan ends with. -/
theorem tapp_scan_events {σ : Type} (l : List (tapp_func_t σ)) :
    ∀ (pos : Nat) (pr : tlibc_error_code_t) (s : LoopSt σ),
      (pr = E_TLIBC_NOERROR ∨ pr = E_TLIBC_WOULD_BLOCK) →
      ∃ evs : List LoopEvent,
        (tapp_scan l pos pr s).2.trace = s.trace ++ evs ∧
        (∀ ev ∈ evs, ∃ p q, ev = LoopEvent.probe p q ∧ pos ≤ p ∧ p < pos + l.length) ∧
        ((tapp_scan l pos pr s).1 = E_TLIBC_NOERROR →
          (pr = E_TLIBC_NOERROR ∨ ∃ p, LoopEvent.probe p E_TLIBC_NOERROR ∈ evs) ∧
          ∀ p q, LoopEvent.probe p q ∈ evs → q = E_TLIBC_NOERROR ∨ q = E_TLIBC_WOULD_BLOCK) ∧
        ((tapp_scan l pos pr s).1 = E_TLIBC_WOULD_BLOCK →
          pr = E_TLIBC_WOULD_BLOCK ∧
          ∀ p q, LoopEvent.probe p q ∈ evs → q = E_TLIBC_WOULD_BLOCK) ∧
        ((tapp_scan l pos pr s).1 ≠ E_TLIBC_NOERROR →
          (tapp_scan l pos pr s).1 ≠ E_TLIBC_WOULD_BLOCK →
          ∃ p, LoopEvent.probe p (tapp_scan l pos pr s).1 ∈ evs) := by
  induction l with
  | nil =>
    intro pos pr s hpr
    refine ⟨[], by simp [tapp_scan], by simp, ?_, ?_, ?_⟩
    · intro h; simp [tapp_scan] at h; simp [h]
    · intro h; simp [tapp_scan] at h; simp [h]
    · intro h1 h2
      simp only [tapp_scan] at h1 h2
      rcases hpr with h | h
      · exact absurd h h1
      · exact absurd h h2
  | cons f rest ih =>
    intro pos pr s hpr
    by_cases h1 : (f s.env).1 = E_TLIBC_NOERROR
    · obtain ⟨evs, htr, hev, hA, hB, hC⟩ := ih (pos + 1) E_TLIBC_NOERROR
        { s with env := (f s.env).2,
                 trace := s.trace ++ [LoopEvent.probe pos (f s.env).1] } (Or.inl rfl)
      have hs : tapp_scan (f :: rest) pos pr s = tapp_scan rest (pos + 1) E_TLIBC_NOERROR
          { s with env := (f s.env).2,
                   trace := s.trace ++ [LoopEvent.probe pos (f s.env).1] } := by
        simp [tapp_scan, h1]
      rw [hs]
      refine ⟨LoopEvent.probe pos (f s.env).1 :: evs, ?_, ?_, ?_, ?_, ?_⟩
      · rw [htr]; simp
      · intro ev hmem
        rcases List.mem_cons.mp hmem with h | h
        · exact ⟨pos, (f s.env).1, h, le_refl _, by simp⟩
        · obtain ⟨p, q, he, hp1, hp2⟩ := hev ev h
          exact ⟨p, q, he, by omega, by simp only [List.length_cons]; omega⟩
      · intro h
        refine ⟨Or.inr ⟨pos, by simp [h1]⟩, ?_⟩
        intro p q hmem
        rcases List.mem_cons.mp hmem with hh | hh
        · injection hh with _ hq
          left; rw [hq]; exact h1
        · exact (hA h).2 p q hh
      · intro h
        exact absurd (hB h).1 (by simp)
      · intro h1' h2'
        obtain ⟨p, hp⟩ := hC h1' h2'
        exact ⟨p, List.mem_cons_of_mem _ hp⟩
    · by_cases h2 : (f s.env).1 = E_TLIBC_WOULD_BLOCK
      · obtain ⟨evs, htr, hev, hA, hB, hC⟩ := ih (pos + 1) pr
          { s with env := (f s.env).2,
                   trace := s.trace ++ [LoopEvent.probe pos (f s.env).1] } hpr
        have hs : tapp_scan (f :: rest) pos pr s = tapp_scan rest (pos + 1) pr
            { s with env := (f s.env).2,
                     trace := s.trace ++ [LoopEvent.probe pos (f s.env).1] } := by
          simp [tapp_scan, h2]
        rw [hs]
        refine ⟨LoopEvent.probe pos (f s.env).1 :: evs, ?_, ?_, ?_, ?_, ?_⟩
        · rw [htr]; simp
        · intro ev hmem
          rcases List.mem_cons.mp hmem with h | h
          · exact ⟨pos, (f s.env).1, h, le_refl _, by simp⟩
          · obtain ⟨p, q, he, hp1, hp2⟩ := hev ev h
            exact ⟨p, q, he, by omega, by simp only [List.length_cons]; omega⟩
        · intro h
          refine ⟨?_, ?_⟩
          · rcases (hA h).1 with hh | ⟨p, hp⟩
            · exact Or.inl hh
            · exact Or.inr ⟨p, List.mem_cons_of_mem _ hp⟩
          · intro p q hmem
            rcases List.mem_cons.mp hmem with hh | hh
            · injection hh with _ hq
              right; rw [hq]; exact h2
            · exact (hA h).2 p q hh
        · intro h
          refine ⟨(hB h).1, ?_⟩
          intro p q hmem
          rcases List.mem_cons.mp hmem with hh | hh
          · injection hh with _ hq
            rw [hq]; exact h2
          · exact (hB h).2 p q hh
        · intro h1' h2'
          obtain ⟨p, hp⟩ := hC h1' h2'
          exact ⟨p, List.mem_cons_of_mem _ hp⟩
      · have hs : tapp_scan (f :: rest) pos pr s = ((f s.env).1,
            { s with env := (f s.env).2,
                     trace := s.trace ++ [LoopEvent.probe pos (f s.env).1] }) := by
          simp [tapp_scan, h1, h2]
        rw [hs]
        refine ⟨[LoopEvent.probe pos (f s.env).1], rfl, ?_, ?_, ?_, ?_⟩
        · intro ev hmem
          exact ⟨pos, (f s.env).1, List.mem_singleton.mp hmem, le_refl _, by simp⟩
        · intro h; exact absurd h h1
        · intro h; exact absurd h h2
        · intro _ _; exact ⟨pos, by simp⟩

/-- A pass that reaches a probe returning a hard status ends the loop with it. -/
theorem tapp_loop_from_hard {σ : Type} (idle_usec idle_limit : Nat)
    (pre post : List (tapp_func_t σ)) (f : tapp_func_t σ) (usleep : usleep_t σ)
    (fuel : Nat) (s : LoopSt σ) (r : tlibc_error_code_t)
    (hterm : s.env.g_tapp_sigterm = false)
    (hpre : (tapp_scan pre 0 E_TLIBC_WOULD_BLOCK
              { s with trace := s.trace ++ [LoopEvent.pass] }).1 = E_TLIBC_NOERROR ∨
            (tapp_scan pre 0 E_TLIBC_WOULD_BLOCK
              { s with trace := s.trace ++ [LoopEvent.pass] }).1 = E_TLIBC_WOULD_BLOCK)
    (hr : (f (tapp_scan pre 0 E_TLIBC_WOULD_BLOCK
              { s with trace := s.trace ++ [LoopEvent.pass] }).2.env).1 = r)
    (hne : r ≠ E_TLIBC_NOERROR) (hwb : r ≠ E_TLIBC_WOULD_BLOCK) :
    ∃ evs : List LoopEvent,
      (∀ ev ∈ evs, ∃ p q, ev = LoopEvent.probe p q ∧ p < pre.length) ∧
      tapp_loop_from idle_usec idle_limit (pre ++ f :: post) usleep (fuel + 1) s =
        Run.returned r (tapp_done
          { env := (f (tapp_scan pre 0 E_TLIBC_WOULD_BLOCK
              { s with trace := s.trace ++ [LoopEvent.pass] }).2.env).2,
            idle_count := s.idle_count,
            trace := s.trace ++ LoopEvent.pass :: evs ++ [LoopEvent.probe pre.length r] }) := by
  obtain ⟨evs, htr, hev, -, -, -⟩ := tapp_scan_events pre 0 E_TLIBC_WOULD_BLOCK
    { s with trace := s.trace ++ [LoopEvent.pass] } (Or.inr rfl)
  refine ⟨evs, ?_, ?_⟩
  · intro ev hmem
    obtain ⟨p, q, he, _, hp⟩ := hev ev hmem
    exact ⟨p, q, he, by omega⟩
  · have hidle := tapp_scan_idle_count pre 0 E_TLIBC_WOULD_BLOCK
      { s with trace := s.trace ++ [LoopEvent.pass] }
    have hscan := tapp_scan_append pre (f :: post) 0 E_TLIBC_WOULD_BLOCK
      { s with trace := s.trace ++ [LoopEvent.pass] } hpre
    have hbody : tapp_body idle_usec idle_limit (pre ++ f :: post) usleep s =
        (some r,
          { env := (f (tapp_scan pre 0 E_TLIBC_WOULD_BLOCK
              { s with trace := s.trace ++ [LoopEvent.pass] }).2.env).2,
            idle_count := s.idle_count,
            trace := s.trace ++ LoopEvent.pass :: evs ++ [LoopEvent.probe pre.length r] }) := by
      simp only [tapp_body]
      rw [hscan]
      simp only [tapp_scan, hr, hne, hwb, if_false, ne_eq, not_false_eq_true, if_true]
      simp only [htr, hidle, zero_add]
      cases r <;> simp_all
    simp only [tapp_loop_from, hterm, hbody]
    simp

/-! ## Exit paths of `tapp_loop` -/

theorem tapp_loop_from_returned_term {σ : Type} (idle_usec idle_limit : Nat)
    (probes : List (tapp_func_t σ)) (usleep : usleep_t σ) :
    ∀ (fuel : Nat) (s : LoopSt σ) (ret : tlibc_error_code_t) (s1 : LoopSt σ),
      tapp_loop_from idle_usec idle_limit probes usleep fuel s = Run.returned ret s1 →
      s1.env.g_tapp_sigterm = true := by
  intro fuel
  induction fuel with
  | zero =>
    intro s ret s1 h
    simp only [tapp_loop_from] at h
    split_ifs at h
    injection h with _ h2
    rw [← h2]; rfl
  | succ n ih =>
    intro s ret s1 h
    simp only [tapp_loop_from] at h
    split_ifs at h
    · injection h with _ h2
      rw [← h2]; rfl
    · split at h
      · injection h with _ h2
        rw [← h2]; rfl
      · exact ih _ _ _ h

theorem tapp_loop_from_of_term {σ : Type} (idle_usec idle_limit : Nat)
    (probes : List (tapp_func_t σ)) (usleep : usleep_t σ) (fuel : Nat) (s : LoopSt σ)
    (h : s.env.g_tapp_sigterm = true) :
    tapp_loop_from idle_usec idle_limit probes usleep fuel s =
      Run.returned E_TLIBC_NOERROR (tapp_done s) := by
  cases fuel <;> simp [tapp_loop_from, h]

theorem tapp_done_of_term {σ : Type} (s : LoopSt σ) (h : s.env.g_tapp_sigterm = true) :
    tapp_done s = s := by
  obtain ⟨⟨t, u1, u2, w⟩, c, tr⟩ := s
  simp only at h
  simp [tapp_done, h]

/-- The loop never returns `E_TLIBC_WOULD_BLOCK`. -/
theorem tapp_loop_from_ne_would_block {σ : Type} (idle_usec idle_limit : Nat)
    (probes : List (tapp_func_t σ)) (usleep : usleep_t σ) :
    ∀ (fuel : Nat) (s : LoopSt σ) (ret : tlibc_error_code_t) (s1 : LoopSt σ),
      tapp_loop_from idle_usec idle_limit probes usleep fuel s = Run.returned ret s1 →
      ret ≠ E_TLIBC_WOULD_BLOCK := by
  intro fuel
  induction fuel with
  | zero =>
    intro s ret s1 h
    simp only [tapp_loop_from] at h
    split_ifs at h
    injection h with h1 _
    rw [← h1]; simp
  | succ n ih =>
    intro s ret s1 h
    simp only [tapp_loop_from] at h
    split_ifs at h
    · injection h with h1 _
      rw [← h1]; simp
    · split at h
      · rename_i r s2 hb
        injection h with h1 _
        rw [← h1]
        simp only [tapp_body] at hb
        split at hb
        · simp at hb
        · split_ifs at hb
          · simp only [Prod.mk.injEq, Option.some.injEq] at hb
            rw [← hb.1]; simp
          · simp at hb
          · simp at hb
        · rename_i hne1 hne2
          simp only [Prod.mk.injEq, Option.some.injEq] at hb
          rw [← hb.1]
          exact fun hc => hne2 hc
      · exact ih _ _ _ h

/-! ## Monotonicity of the flags -/

theorem FlagsLe.refl {σ : Type} (a : Env σ) : FlagsLe a a :=
  ⟨id, id, id⟩

theorem FlagsLe.trans {σ : Type} {a b c : Env σ} (h1 : FlagsLe a b) (h2 : FlagsLe b c) :
    FlagsLe a c :=
  ⟨fun h => h2.1 (h1.1 h), fun h => h2.2.1 (h1.2.1 h), fun h => h2.2.2 (h1.2.2 h)⟩

theorem FlagsLe.set_term {σ : Type} (a : Env σ) :
    FlagsLe a { a with g_tapp_sigterm := true } :=
  ⟨fun _ => rfl, id, id⟩

theorem tapp_scan_mono {σ : Type} (l : List (tapp_func_t σ))
    (hp : ∀ f ∈ l, ∀ e, FlagsLe e (f e).2) :
    ∀ (pos : Nat) (pr : tlibc_error_code_t) (s : LoopSt σ) (e0 : Env σ),
      FlagsLe e0 s.env → FlagsLe e0 (tapp_scan l pos pr s).2.env := by
  induction l with
  | nil => intro pos pr s e0 h; exact h
  | cons f rest ih =>
    intro pos pr s e0 h
    have hf : FlagsLe e0 (f s.env).2 :=
      FlagsLe.trans h (hp f (List.mem_cons_self _ _) s.env)
    have ih1 := ih (fun g hg e => hp g (List.mem_cons_of_mem _ hg) e)
    simp only [tapp_scan]
    split_ifs
    · apply ih1; exact hf
    · exact hf
    · apply ih1; exact hf

theorem tapp_body_mono {σ : Type} (idle_usec idle_limit : Nat)
    (probes : List (tapp_func_t σ)) (usleep : usleep_t σ)
    (hp : ∀ f ∈ probes, ∀ e, FlagsLe e (f e).2)
    (hu : ∀ u e, FlagsLe e (usleep u e).2) (s : LoopSt σ) :
    FlagsLe s.env (tapp_body idle_usec idle_limit probes usleep s).2.env := by
  have hs := tapp_scan_mono probes hp 0 E_TLIBC_WOULD_BLOCK
    { s with trace := s.trace ++ [LoopEvent.pass] } s.env (FlagsLe.refl _)
  simp only [tapp_body]
  split
  · exact hs
  · split_ifs
    · exact FlagsLe.trans hs (hu _ _)
    · exact FlagsLe.trans hs (hu _ _)
    · exact hs
  · exact hs

theorem tapp_loop_from_mono {σ : Type} (idle_usec idle_limit : Nat)
    (probes : List (tapp_func_t σ)) (usleep : usleep_t σ)
    (hp : ∀ f ∈ probes, ∀ e, FlagsLe e (f e).2)
    (hu : ∀ u e, FlagsLe e (usleep u e).2) :
    ∀ (fuel : Nat) (s : LoopSt σ),
      FlagsLe s.env (tapp_loop_from idle_usec idle_limit probes usleep fuel s).env := by
  intro fuel
  induction fuel with
  | zero =>
    intro s
    simp only [tapp_loop_from]
    split_ifs
    · exact FlagsLe.set_term _
    · exact FlagsLe.refl _
  | succ n ih =>
    intro s
    have hb := tapp_body_mono idle_usec idle_limit probes usleep hp hu s
    simp only [tapp_loop_from]
    split_ifs
    · exact FlagsLe.set_term _
    · split
      · rename_i r s1 heq
        rw [heq] at hb
        exact FlagsLe.trans hb (FlagsLe.set_term _)
      · rename_i s1 heq
        rw [heq] at hb
        exact FlagsLe.trans hb (ih s1)

theorem spawn_create_mono {σ : Type} (pt : Pthread σ)
    (hc : ∀ i e, FlagsLe e (pt.pthread_create i e).2) :
    ∀ (n i : Nat) (s : SpawnSt σ) (e0 : Env σ),
      FlagsLe e0 s.env → FlagsLe e0 (spawn_create pt n i s).2.env := by
  intro n
  induction n with
  | zero => intro i s e0 h; exact h
  | succ n ih =>
    intro i s e0 h
    simp only [spawn_create]
    split_ifs
    · apply ih; exact FlagsLe.trans h (hc i s.env)
    · exact FlagsLe.trans h (hc i s.env)

theorem spawn_join_mono {σ : Type} (pt : Pthread σ) (func : Nat → tlibc_error_code_t)
    (hj : ∀ i e, FlagsLe e (pt.pthread_join i e)) :
    ∀ (n i : Nat) (ret : tlibc_error_code_t) (s : SpawnSt σ) (e0 : Env σ),
      FlagsLe e0 s.env → FlagsLe e0 (spawn_join pt func n i ret s).2.env := by
  intro n
  induction n with
  | zero => intro i ret s e0 h; exact h
  | succ n ih =>
    intro i ret s e0 h
    simp only [spawn_join]
    split_ifs
    · apply ih
      exact FlagsLe.trans (FlagsLe.trans h (hj i s.env)) (FlagsLe.set_term _)
    · apply ih; exact FlagsLe.trans h (hj i s.env)

theorem spawn_cancel_mono {σ : Type} (pt : Pthread σ)
    (hj : ∀ i e, FlagsLe e (pt.pthread_join i e)) :
    ∀ (n i : Nat) (s : SpawnSt σ) (e0 : Env σ),
      FlagsLe e0 s.env → FlagsLe e0 (spawn_cancel pt n i s).env := by
  intro n
  induction n with
  | zero => intro i s e0 h; exact h
  | succ n ih =>
    intro i s e0 h
    simp only [spawn_cancel]
    apply ih
    exact FlagsLe.trans h (hj i s.env)

theorem tapp_spawn_mono {σ : Type} (TAPP_THREADS : Nat) (pt : Pthread σ) (threads : Nat)
    (func : Nat → tlibc_error_code_t)
    (hc : ∀ i e, FlagsLe e (pt.pthread_create i e).2)
    (hj : ∀ i e, FlagsLe e (pt.pthread_join i e)) (e : Env σ) :
    FlagsLe e (tapp_spawn TAPP_THREADS pt threads func e).2.env := by
  have h1 := spawn_create_mono pt hc threads 0 { env := e, tid_vec_num := 0, trace := [] } e
    (FlagsLe.refl _)
  simp only [tapp_spawn]
  split_ifs
  · exact FlagsLe.refl _
  · apply spawn_join_mono pt func hj; exact h1
  · apply spawn_cancel_mono pt hj
    exact FlagsLe.trans h1 (FlagsLe.set_term _)

/-! ## Lemmas on the loops of `tapp_spawn` -/

theorem spawn_create_all_ok {σ : Type} (pt : Pthread σ) :
    ∀ (n i : Nat) (s : SpawnSt σ),
      (∀ j, i ≤ j → j < i + n → ∀ e, (pt.pthread_create j e).1 = true) →
      s.tid_vec_num + n < 2 ^ 16 →
      (spawn_create pt n i s).1 = true ∧
      (spawn_create pt n i s).2.tid_vec_num = s.tid_vec_num + n ∧
      (spawn_create pt n i s).2.trace =
        s.trace ++ (List.range' i n).map (fun j => ThreadEvent.create j true) := by
  intro n
  induction n with
  | zero =>
    intro i s _ _
    exact ⟨rfl, rfl, by simp [spawn_create]⟩
  | succ n ih =>
    intro i s h hlt
    have hi : (pt.pthread_create i s.env).1 = true := h i (le_refl _) (by omega) s.env
    have hmod : (s.tid_vec_num + 1) % 2 ^ 16 = s.tid_vec_num + 1 :=
      Nat.mod_eq_of_lt (by omega)
    have h1 := ih (i + 1)
      { env := (pt.pthread_create i s.env).2, tid_vec_num := (s.tid_vec_num + 1) % 2 ^ 16,
        trace := s.trace ++ [ThreadEvent.create i (pt.pthread_create i s.env).1] }
      (fun j hj1 hj2 e => h j (by omega) (by omega) e)
      (by simp only [hmod]; omega)
    simp only [spawn_create, hi, if_true]
    rw [hi] at h1
    refine ⟨h1.1, ?_, ?_⟩
    · rw [h1.2.1]; simp only [hmod]; omega
    · rw [h1.2.2]; simp [List.range'_succ]

theorem spawn_create_fail_at {σ : Type} (pt : Pthread σ) (k : Nat)
    (hk : ∀ e, (pt.pthread_create k e).1 = false) :
    ∀ (n i : Nat) (s : SpawnSt σ),
      (∀ j, i ≤ j → j < k → ∀ e, (pt.pthread_create j e).1 = true) →
      i ≤ k → k < i + n → s.tid_vec_num + (k - i) + 1 < 2 ^ 16 →
      (spawn_create pt n i s).1 = false ∧
      (spawn_create pt n i s).2.tid_vec_num = s.tid_vec_num + (k - i) + 1 ∧
      (spawn_create pt n i s).2.trace =
        s.trace ++ (List.range' i (k - i)).map (fun j => ThreadEvent.create j true) ++
          [ThreadEvent.create k false] := by
  intro n
  induction n with
  | zero => intro i s _ h1 h2 _; omega
  | succ n ih =>
    intro i s h hik hkn hlt
    have hmod : (s.tid_vec_num + 1) % 2 ^ 16 = s.tid_vec_num + 1 :=
      Nat.mod_eq_of_lt (by omega)
    by_cases heq : i = k
    · subst heq
      have hi := hk s.env
      have hlt2 : s.tid_vec_num + 1 < 65536 := by
        have h0 : i - i = 0 := Nat.sub_self i
        rw [h0] at hlt
        norm_num at hlt
        exact hlt
      simp [spawn_create, hi]
      exact hlt2
    · have hi : (pt.pthread_create i s.env).1 = true := h i (le_refl _) (by omega) s.env
      have h1 := ih (i + 1)
        { env := (pt.pthread_create i s.env).2, tid_vec_num := (s.tid_vec_num + 1) % 2 ^ 16,
          trace := s.trace ++ [ThreadEvent.create i (pt.pthread_create i s.env).1] }
        (fun j hj1 hj2 e => h j (by omega) hj2 e) (by omega) (by omega)
        (by simp only [hmod]; omega)
      simp only [spawn_create, hi, if_true]
      rw [hi] at h1
      have hsub : k - i = (k - (i + 1)) + 1 := by omega
      refine ⟨h1.1, ?_, ?_⟩
      · rw [h1.2.1]; simp only [hmod]; omega
      · rw [h1.2.2, hsub]; simp [List.range'_succ]

theorem spawn_cancel_trace {σ : Type} (pt : Pthread σ) :
    ∀ (n i : Nat) (s : SpawnSt σ),
      (spawn_cancel pt n i s).trace = s.trace ++ (List.range' i n).map ThreadEvent.join := by
  intro n
  induction n with
  | zero => intro i s; simp [spawn_cancel]
  | succ n ih =>
    intro i s
    simp only [spawn_cancel]
    rw [ih]; simp [List.range'_succ]

theorem spawn_join_trace {σ : Type} (pt : Pthread σ) (func : Nat → tlibc_error_code_t) :
    ∀ (n i : Nat) (ret : tlibc_error_code_t) (s : SpawnSt σ),
      (spawn_join pt func n i ret s).2.trace =
        s.trace ++ (List.range' i n).map ThreadEvent.join := by
  intro n
  induction n with
  | zero => intro i ret s; simp [spawn_join]
  | succ n ih =>
    intro i ret s
    simp only [spawn_join]
    split_ifs <;> (rw [ih]; simp [List.range'_succ])

theorem spawn_join_all_ok {σ : Type} (pt : Pthread σ) (func : Nat → tlibc_error_code_t) :
    ∀ (n i : Nat) (ret : tlibc_error_code_t) (s : SpawnSt σ),
      (∀ j, i ≤ j → j < i + n → func (j % 2 ^ 32) = E_TLIBC_NOERROR) →
      (spawn_join pt func n i ret s).1 = ret := by
  intro n
  induction n with
  | zero => intro i ret s _; rfl
  | succ n ih =>
    intro i ret s h
    have hi : func (i % 2 ^ 32) = E_TLIBC_NOERROR := h i (le_refl _) (by omega)
    simp only [spawn_join, worker, tid_arg, hi, ne_eq, not_true_eq_false, if_false]
    exact ih _ _ _ (fun j hj1 hj2 => h j (by omega) (by omega))

theorem spawn_join_last {σ : Type} (pt : Pthread σ) (func : Nat → tlibc_error_code_t)
    (k : Nat) (hk : func (k % 2 ^ 32) ≠ E_TLIBC_NOERROR) :
    ∀ (n i : Nat) (ret : tlibc_error_code_t) (s : SpawnSt σ),
      i ≤ k → k < i + n →
      (∀ j, k < j → j < i + n → func (j % 2 ^ 32) = E_TLIBC_NOERROR) →
      (spawn_join pt func n i ret s).1 = func (k % 2 ^ 32) := by
  intro n
  induction n with
  | zero => intro i ret s h1 h2 _; omega
  | succ n ih =>
    intro i ret s hik hkn h
    by_cases heq : i = k
    · subst heq
      simp only [spawn_join, worker, tid_arg, hk, ne_eq, not_false_eq_true, if_true]
      exact spawn_join_all_ok pt func n (i + 1) _ _ (fun j hj1 hj2 => h j (by omega) (by omega))
    · simp only [spawn_join]
      split_ifs
      · exact ih _ _ _ (by omega) (by omega) (fun j hj1 hj2 => h j hj1 (by omega))
      · exact ih _ _ _ (by omega) (by omega) (fun j hj1 hj2 => h j hj1 (by omega))

/-- The status the join loop ends with is the one it started with or the exit
status of one of the joined workers, unchanged. -/
theorem spawn_join_ret_cases {σ : Type} (pt : Pthread σ) (func : Nat → tlibc_error_code_t) :
    ∀ (n i : Nat) (ret : tlibc_error_code_t) (s : SpawnSt σ),
      (spawn_join pt func n i ret s).1 = ret ∨
      ∃ k, i ≤ k ∧ k < i + n ∧ func (k % 2 ^ 32) ≠ E_TLIBC_NOERROR ∧
        (spawn_join pt func n i ret s).1 = func (k % 2 ^ 32) := by
  intro n
  induction n with
  | zero => intro i ret s; exact Or.inl rfl
  | succ n ih =>
    intro i ret s
    by_cases hi : func (i % 2 ^ 32) = E_TLIBC_NOERROR
    · simp only [spawn_join, worker, tid_arg, hi, ne_eq, not_true_eq_false, if_false]
      rcases ih (i + 1) ret
        { s with env := pt.pthread_join i s.env, trace := s.trace ++ [ThreadEvent.join i] }
        with h | ⟨k, h1, h2, h3, h4⟩
      · exact Or.inl h
      · exact Or.inr ⟨k, by omega, by omega, h3, h4⟩
    · simp only [spawn_join, worker, tid_arg, hi, ne_eq, not_false_eq_true, if_true]
      rcases ih (i + 1) (func (i % 2 ^ 32))
        { env := { (pt.pthread_join i s.env) with g_tapp_sigterm := true },
          tid_vec_num := s.tid_vec_num, trace := s.trace ++ [ThreadEvent.join i] }
        with h | ⟨k, h1, h2, h3, h4⟩
      · exact Or.inr ⟨i, le_refl _, by omega, hi, h⟩
      · exact Or.inr ⟨k, by omega, by omega, h3, h4⟩

theorem spawn_join_term {σ : Type} (pt : Pthread σ) (func : Nat → tlibc_error_code_t)
    (hj : ∀ i e, e.g_tapp_sigterm = true → (pt.pthread_join i e).g_tapp_sigterm = true) :
    ∀ (n i : Nat) (ret : tlibc_error_code_t) (s : SpawnSt σ),
      (s.env.g_tapp_sigterm = true ∨
        ∃ k, i ≤ k ∧ k < i + n ∧ func (k % 2 ^ 32) ≠ E_TLIBC_NOERROR) →
      (spawn_join pt func n i ret s).2.env.g_tapp_sigterm = true := by
  intro n
  induction n with
  | zero =>
    intro i ret s h
    rcases h with h | ⟨k, h1, h2, _⟩
    · exact h
    · omega
  | succ n ih =>
    intro i ret s h
    simp only [spawn_join]
    split_ifs with hi
    · exact ih _ _ _ (Or.inl rfl)
    · apply ih
      rcases h with h | ⟨k, h1, h2, h3⟩
      · exact Or.inl (hj i s.env h)
      · right
        refine ⟨k, ?_, by omega, h3⟩
        by_contra hlt
        have hki : k = i := by omega
        rw [hki] at h3
        simp only [worker, tid_arg, ne_eq, not_not] at hi
        exact h3 hi

/-! ## Counting passes and sleeps in a trace -/

theorem sleep_gaps_append (a b : List LoopEvent) :
    ∀ n, sleep_gaps (a ++ b) n = sleep_gaps a n ++ sleep_gaps b (pending_passes a n) := by
  induction a with
  | nil => intro n; simp [sleep_gaps, pending_passes]
  | cons ev t ih => intro n; cases ev <;> simp [sleep_gaps, pending_passes, ih]

theorem pending_passes_append (a b : List LoopEvent) :
    ∀ n, pending_passes (a ++ b) n = pending_passes b (pending_passes a n) := by
  induction a with
  | nil => intro n; simp [pending_passes]
  | cons ev t ih => intro n; cases ev <;> simp [pending_passes, ih]

theorem pass_calls_append (a b : List LoopEvent) :
    pass_calls (a ++ b) = pass_calls a + pass_calls b := by
  induction a with
  | nil => simp [pass_calls]
  | cons ev t ih =>
    cases ev <;> simp [pass_calls, ih]
    omega

theorem sleep_calls_append (a b : List LoopEvent) :
    sleep_calls (a ++ b) = sleep_calls a + sleep_calls b := by
  induction a with
  | nil => simp [sleep_calls]
  | cons ev t ih =>
    cases ev <;> simp [sleep_calls, ih]
    omega

theorem probe_calls_append (a b : List LoopEvent) :
    probe_calls (a ++ b) = probe_calls a + probe_calls b := by
  induction a with
  | nil => simp [probe_calls]
  | cons ev t ih =>
    cases ev <;> simp [probe_calls, ih]
    omega

theorem probes_only_counts (evs : List LoopEvent)
    (h : ∀ ev ∈ evs, ∃ p q, ev = LoopEvent.probe p q) :
    ∀ n, sleep_gaps evs n = [] ∧ pending_passes evs n = n ∧
      pass_calls evs = 0 ∧ sleep_calls evs = 0 := by
  induction evs with
  | nil => intro n; simp [sleep_gaps, pending_passes, pass_calls, sleep_calls]
  | cons ev t ih =>
    intro n
    obtain ⟨p, q, he⟩ := h ev (List.mem_cons_self _ _)
    have ht := ih (fun e he => h e (List.mem_cons_of_mem _ he)) n
    subst he
    simp [sleep_gaps, pending_passes, pass_calls, sleep_calls, ht]

/-! ## Idle passes -/

theorem tapp_scan_all_would_block {σ : Type} (l : List (tapp_func_t σ))
    (hwb : ∀ f ∈ l, ∀ e, (f e).1 = E_TLIBC_WOULD_BLOCK) :
    ∀ (pos : Nat) (pr : tlibc_error_code_t) (s : LoopSt σ), (tapp_scan l pos pr s).1 = pr := by
  induction l with
  | nil => intro pos pr s; rfl
  | cons f rest ih =>
    intro pos pr s
    have hf := hwb f (List.mem_cons_self _ _) s.env
    simp only [tapp_scan, hf, ne_eq, not_true_eq_false, if_false, reduceCtorEq]
    exact ih (fun g hg e => hwb g (List.mem_cons_of_mem _ hg) e) _ _ _

/-- Shape of one iteration over probes that all return `E_TLIBC_WOULD_BLOCK`. -/
theorem tapp_body_idle {σ : Type} (idle_usec idle_limit : Nat)
    (probes : List (tapp_func_t σ)) (usleep : usleep_t σ)
    (hwb : ∀ f ∈ probes, ∀ e, (f e).1 = E_TLIBC_WOULD_BLOCK) (s : LoopSt σ) :
    ∃ evs : List LoopEvent, (∀ ev ∈ evs, ∃ p q, ev = LoopEvent.probe p q) ∧
      ((s.idle_count + 1) % 2 ^ 32 < idle_limit →
        (tapp_body idle_usec idle_limit probes usleep s).1 = none ∧
        (tapp_body idle_usec idle_limit probes usleep s).2.idle_count =
          (s.idle_count + 1) % 2 ^ 32 ∧
        (tapp_body idle_usec idle_limit probes usleep s).2.trace =
          s.trace ++ LoopEvent.pass :: evs) ∧
      (idle_limit ≤ (s.idle_count + 1) % 2 ^ 32 →
        (tapp_body idle_usec idle_limit probes usleep s).2.trace =
          s.trace ++ LoopEvent.pass :: evs ++ [LoopEvent.sleep idle_usec] ∧
        ((tapp_body idle_usec idle_limit probes usleep s).1 = none →
          (tapp_body idle_usec idle_limit probes usleep s).2.idle_count = 0)) := by
  obtain ⟨evs, htr, hev, -, -, -⟩ := tapp_scan_events probes 0 E_TLIBC_WOULD_BLOCK
    { s with trace := s.trace ++ [LoopEvent.pass] } (Or.inr rfl)
  have hst := tapp_scan_all_would_block probes hwb 0 E_TLIBC_WOULD_BLOCK
    { s with trace := s.trace ++ [LoopEvent.pass] }
  have hidle := tapp_scan_idle_count probes 0 E_TLIBC_WOULD_BLOCK
    { s with trace := s.trace ++ [LoopEvent.pass] }
  simp only at htr hidle
  refine ⟨evs, fun ev hm => ?_, ?_, ?_⟩
  · obtain ⟨p, q, he, _⟩ := hev ev hm
    exact ⟨p, q, he⟩
  · intro hlt
    have hnot : ¬ (idle_limit ≤ (s.idle_count + 1) % 2 ^ 32) := by omega
    simp only [tapp_body, hst, hidle, htr, ge_iff_le, hnot, if_false]
    simp
  · intro hle
    simp only [tapp_body, hst, hidle, htr, ge_iff_le, hle, if_true]
    split_ifs <;> simp

theorem counts_after_pass (tr evs : List LoopEvent)
    (h : ∀ ev ∈ evs, ∃ p q, ev = LoopEvent.probe p q) :
    sleep_gaps (tr ++ LoopEvent.pass :: evs) 0 = sleep_gaps tr 0 ∧
    pending_passes (tr ++ LoopEvent.pass :: evs) 0 = pending_passes tr 0 + 1 ∧
    pass_calls (tr ++ LoopEvent.pass :: evs) = pass_calls tr + 1 ∧
    sleep_calls (tr ++ LoopEvent.pass :: evs) = sleep_calls tr := by
  have hc := probes_only_counts evs h
  refine ⟨?_, ?_, ?_, ?_⟩
  · rw [sleep_gaps_append]; simp [sleep_gaps, (hc _).1]
  · rw [pending_passes_append]; simp [pending_passes, (hc _).2.1]
  · rw [pass_calls_append]; simp [pass_calls, (hc 0).2.2.1]
  · rw [sleep_calls_append]; simp [sleep_calls, (hc 0).2.2.2]

theorem counts_after_sleep (tr evs : List LoopEvent) (u : Nat)
    (h : ∀ ev ∈ evs, ∃ p q, ev = LoopEvent.probe p q) :
    sleep_gaps (tr ++ LoopEvent.pass :: evs ++ [LoopEvent.sleep u]) 0 =
      sleep_gaps tr 0 ++ [pending_passes tr 0 + 1] ∧
    pending_passes (tr ++ LoopEvent.pass :: evs ++ [LoopEvent.sleep u]) 0 = 0 ∧
    pass_calls (tr ++ LoopEvent.pass :: evs ++ [LoopEvent.sleep u]) = pass_calls tr + 1 ∧
    sleep_calls (tr ++ LoopEvent.pass :: evs ++ [LoopEvent.sleep u]) = sleep_calls tr + 1 := by
  have hp := counts_after_pass tr evs h
  refine ⟨?_, ?_, ?_, ?_⟩
  · rw [sleep_gaps_append, hp.1, hp.2.1]; simp [sleep_gaps]
  · rw [pending_passes_append]; simp [pending_passes]
  · rw [pass_calls_append, hp.2.2.1]; simp [pass_calls]
  · rw [sleep_calls_append, hp.2.2.2]; simp [sleep_calls]

/-- One idle iteration keeps the bookkeeping invariant. -/
theorem tapp_body_idle_inv {σ : Type} (idle_usec idle_limit : Nat)
    (probes : List (tapp_func_t σ)) (usleep : usleep_t σ)
    (hwb : ∀ f ∈ probes, ∀ e, (f e).1 = E_TLIBC_WOULD_BLOCK) (s : LoopSt σ)
    (hinv : IdleInv idle_limit s) :
    (∀ g ∈ sleep_gaps (tapp_body idle_usec idle_limit probes usleep s).2.trace 0,
        g = max 1 idle_limit) ∧
    ((tapp_body idle_usec idle_limit probes usleep s).1 = none →
      IdleInv idle_limit (tapp_body idle_usec idle_limit probes usleep s).2 ∧
      pass_calls (tapp_body idle_usec idle_limit probes usleep s).2.trace =
        pass_calls s.trace + 1) := by
  obtain ⟨evs, hev, hlo, hhi⟩ := tapp_body_idle idle_usec idle_limit probes usleep hwb s
  have hmodlt : (s.idle_count + 1) % 2 ^ 32 < 2 ^ 32 := Nat.mod_lt _ (by norm_num)
  by_cases hc : (s.idle_count + 1) % 2 ^ 32 < idle_limit
  · obtain ⟨h1, h2, h3⟩ := hlo hc
    have hp := counts_after_pass s.trace evs hev
    refine ⟨?_, fun _ => ⟨⟨?_, ?_⟩, ?_⟩⟩
    · rw [h3, hp.1]; exact hinv.1
    · rw [h3, hp.1]; exact hinv.1
    · intro hL
      obtain ⟨i1, i2, i3⟩ := hinv.2 hL
      have hle : s.idle_count + 1 < 2 ^ 32 := by
        have : max 1 idle_limit < 2 ^ 32 := max_lt (by norm_num) hL
        omega
      have hmod : (s.idle_count + 1) % 2 ^ 32 = s.idle_count + 1 := Nat.mod_eq_of_lt hle
      rw [h2, h3, hp.2.1, hp.2.2.1, hp.2.2.2, hmod]
      rw [hmod] at hc
      refine ⟨lt_of_lt_of_le hc (le_max_right _ _), by omega, by omega⟩
    · rw [h3, hp.2.2.1]
  · have hle : idle_limit ≤ (s.idle_count + 1) % 2 ^ 32 := by omega
    obtain ⟨h3, h4⟩ := hhi hle
    have hL : idle_limit < 2 ^ 32 := by omega
    obtain ⟨i1, i2, i3⟩ := hinv.2 hL
    have hmax : max 1 idle_limit < 2 ^ 32 := max_lt (by norm_num) hL
    have hmod : (s.idle_count + 1) % 2 ^ 32 = s.idle_count + 1 :=
      Nat.mod_eq_of_lt (by omega)
    rw [hmod] at hle
    have hgap : s.idle_count + 1 = max 1 idle_limit := by
      rcases Nat.eq_zero_or_pos idle_limit with h0 | hpos
      · subst h0
        simp only [zero_le, max_eq_left] at i1 ⊢
        omega
      · have : max 1 idle_limit = idle_limit := max_eq_right hpos
        omega
    have hp := counts_after_sleep s.trace evs idle_usec hev
    have hg : ∀ g ∈ sleep_gaps (tapp_body idle_usec idle_limit probes usleep s).2.trace 0,
        g = max 1 idle_limit := by
      rw [h3, hp.1]
      intro g hgm
      rcases List.mem_append.mp hgm with hgm | hgm
      · exact hinv.1 g hgm
      · rw [List.mem_singleton.mp hgm, i2]; exact hgap
    refine ⟨hg, fun hnone => ⟨⟨hg, fun _ => ?_⟩, ?_⟩⟩
    · rw [h4 hnone, h3, hp.2.1, hp.2.2.1, hp.2.2.2]
      refine ⟨by omega, rfl, ?_⟩
      have hmul : (sleep_calls s.trace + 1) * max 1 idle_limit =
          sleep_calls s.trace * max 1 idle_limit + max 1 idle_limit := by ring
      rw [hmul]
      omega
    · rw [h3, hp.2.2.1]

theorem tapp_loop_from_idle {σ : Type} (idle_usec idle_limit : Nat)
    (probes : List (tapp_func_t σ)) (usleep : usleep_t σ)
    (hwb : ∀ f ∈ probes, ∀ e, (f e).1 = E_TLIBC_WOULD_BLOCK) :
    ∀ (fuel : Nat) (s : LoopSt σ), IdleInv idle_limit s →
      (∀ g ∈ sleep_gaps (tapp_loop_from idle_usec idle_limit probes usleep fuel s).trace 0,
          g = max 1 idle_limit) ∧
      (∀ s1, tapp_loop_from idle_usec idle_limit probes usleep fuel s = Run.running s1 →
        IdleInv idle_limit s1 ∧ pass_calls s1.trace = pass_calls s.trace + fuel) := by
  intro fuel
  induction fuel with
  | zero =>
    intro s hinv
    simp only [tapp_loop_from]
    split_ifs
    · exact ⟨hinv.1, fun s1 h => by simp at h⟩
    · refine ⟨hinv.1, fun s1 h => ?_⟩
      injection h with h
      rw [← h]; exact ⟨hinv, rfl⟩
  | succ n ih =>
    intro s hinv
    have hb := tapp_body_idle_inv idle_usec idle_limit probes usleep hwb s hinv
    simp only [tapp_loop_from]
    split_ifs
    · exact ⟨hinv.1, fun s1 h => by simp at h⟩
    · split
      · rename_i r s2 heq
        rw [heq] at hb
        exact ⟨hb.1, fun s1 h => by simp at h⟩
      · rename_i s2 heq
        rw [heq] at hb
        obtain ⟨hi2, hpc⟩ := hb.2 rfl
        obtain ⟨g1, g2⟩ := ih s2 hi2
        refine ⟨g1, fun s1 h => ?_⟩
        obtain ⟨k1, k2⟩ := g2 s1 h
        refine ⟨k1, ?_⟩
        rw [k2, hpc]; omega

/-! ## Shape of one iteration of the outer loop -/

/-- The events an iteration appends: the pass marker, the probe calls, and a sleep
only when the pass ended with `E_TLIBC_WOULD_BLOCK`; split by the status the pass
ended with. -/
theorem tapp_body_shape {σ : Type} (idle_usec idle_limit : Nat)
    (probes : List (tapp_func_t σ)) (usleep : usleep_t σ) (s : LoopSt σ) :
    ∃ evs : List LoopEvent, (∀ ev ∈ evs, ∃ p q, ev = LoopEvent.probe p q) ∧
      ((tapp_body idle_usec idle_limit probes usleep s).1 = none ∧
        (tapp_body idle_usec idle_limit probes usleep s).2.idle_count = 0 ∧
        (tapp_body idle_usec idle_limit probes usleep s).2.trace =
          s.trace ++ LoopEvent.pass :: evs ∧
        (∃ p, LoopEvent.probe p E_TLIBC_NOERROR ∈ evs) ∧
        (∀ p q, LoopEvent.probe p q ∈ evs → q = E_TLIBC_NOERROR ∨ q = E_TLIBC_WOULD_BLOCK)
      ∨
       (∀ p q, LoopEvent.probe p q ∈ evs → q = E_TLIBC_WOULD_BLOCK) ∧
        ((tapp_body idle_usec idle_limit probes usleep s).2.trace =
            s.trace ++ LoopEvent.pass :: evs ∨
         (tapp_body idle_usec idle_limit probes usleep s).2.trace =
            s.trace ++ LoopEvent.pass :: evs ++ [LoopEvent.sleep idle_usec])
      ∨
       ∃ r, r ≠ E_TLIBC_NOERROR ∧ r ≠ E_TLIBC_WOULD_BLOCK ∧
        (tapp_body idle_usec idle_limit probes usleep s).1 = some r ∧
        (tapp_body idle_usec idle_limit probes usleep s).2.idle_count = s.idle_count ∧
        (tapp_body idle_usec idle_limit probes usleep s).2.trace =
          s.trace ++ LoopEvent.pass :: evs ∧
        (∃ p, LoopEvent.probe p r ∈ evs)) := by
  obtain ⟨evs, htr, hev, hA, hB, hC⟩ := tapp_scan_events probes 0 E_TLIBC_WOULD_BLOCK
    { s with trace := s.trace ++ [LoopEvent.pass] } (Or.inr rfl)
  have hidle := tapp_scan_idle_count probes 0 E_TLIBC_WOULD_BLOCK
    { s with trace := s.trace ++ [LoopEvent.pass] }
  simp only at htr hidle
  refine ⟨evs, fun ev hm => ?_, ?_⟩
  · obtain ⟨p, q, he, _⟩ := hev ev hm
    exact ⟨p, q, he⟩
  · by_cases h1 : (tapp_scan probes 0 E_TLIBC_WOULD_BLOCK
        { s with trace := s.trace ++ [LoopEvent.pass] }).1 = E_TLIBC_NOERROR
    · left
      obtain ⟨hA1, hA2⟩ := hA h1
      have hex : ∃ p, LoopEvent.probe p E_TLIBC_NOERROR ∈ evs := by
        rcases hA1 with h | h
        · exact absurd h (by simp)
        · exact h
      refine ⟨?_, ?_, ?_, hex, hA2⟩ <;> simp [tapp_body, h1, htr]
    · by_cases h2 : (tapp_scan probes 0 E_TLIBC_WOULD_BLOCK
          { s with trace := s.trace ++ [LoopEvent.pass] }).1 = E_TLIBC_WOULD_BLOCK
      · right; left
        refine ⟨(hB h2).2, ?_⟩
        simp only [tapp_body, h2, htr]
        split_ifs
        · right; simp
        · right; simp
        · left; simp
      · right; right
        obtain ⟨p, hp⟩ := hC h1 h2
        have hb : tapp_body idle_usec idle_limit probes usleep s =
            (some (tapp_scan probes 0 E_TLIBC_WOULD_BLOCK
                { s with trace := s.trace ++ [LoopEvent.pass] }).1,
              (tapp_scan probes 0 E_TLIBC_WOULD_BLOCK
                { s with trace := s.trace ++ [LoopEvent.pass] }).2) := by
          simp only [tapp_body]
        refine ⟨_, h1, h2, ?_, ?_, ?_, ⟨p, hp⟩⟩
        · rw [hb]
        · rw [hb]
          exact hidle
        · rw [hb, htr]; simp

/-! ## The launcher when every thread starts, and when one does not -/

theorem tapp_spawn_all_started {σ : Type} (TAPP_THREADS : Nat) (pt : Pthread σ)
    (threads : Nat) (func : Nat → tlibc_error_code_t) (e : Env σ)
    (hcap : TAPP_THREADS ≤ 2 ^ 16) (hN : threads < TAPP_THREADS)
    (hc : ∀ i, i < threads → ∀ e1, (pt.pthread_create i e1).1 = true) :
    tapp_spawn TAPP_THREADS pt threads func e =
      spawn_join pt func threads 0 E_TLIBC_NOERROR
        (spawn_create pt threads 0 { env := e, tid_vec_num := 0, trace := [] }).2 ∧
    (spawn_create pt threads 0 { env := e, tid_vec_num := 0, trace := [] }).2.trace =
      (List.range threads).map (fun i => ThreadEvent.create i true) := by
  obtain ⟨h1, h2, h3⟩ := spawn_create_all_ok pt threads 0
    { env := e, tid_vec_num := 0, trace := [] }
    (fun j _ hj e1 => hc j (by omega) e1) (by simp only []; omega)
  have hnot : ¬ (threads ≥ TAPP_THREADS) := by omega
  refine ⟨?_, ?_⟩
  · simp only [tapp_spawn, hnot, if_false, h1, if_true, h2, zero_add]
  · rw [h3, List.range_eq_range']; simp

/-- What `tapp_spawn` does when `pthread_create` fails at index `k`: the joins
after `cancel_thread:` cover the slots `0..k`, the slot of the failed call
included. -/
theorem tapp_spawn_create_failure {σ : Type} (TAPP_THREADS : Nat) (pt : Pthread σ)
    (threads k : Nat) (func : Nat → tlibc_error_code_t) (e : Env σ)
    (hcap : TAPP_THREADS ≤ 2 ^ 16) (hN : threads < TAPP_THREADS) (hk : k < threads)
    (hc : ∀ i, i < k → ∀ e1, (pt.pthread_create i e1).1 = true)
    (hf : ∀ e1, (pt.pthread_create k e1).1 = false) :
    (tapp_spawn TAPP_THREADS pt threads func e).1 = E_TLIBC_ERRNO ∧
    (tapp_spawn TAPP_THREADS pt threads func e).2.trace =
      (List.range k).map (fun i => ThreadEvent.create i true) ++
        [ThreadEvent.create k false] ++ (List.range (k + 1)).map ThreadEvent.join := by
  obtain ⟨h1, h2, h3⟩ := spawn_create_fail_at pt k hf threads 0
    { env := e, tid_vec_num := 0, trace := [] }
    (fun j _ hj e1 => hc j hj e1) (Nat.zero_le _) (by omega) (by simp only []; omega)
  have hnot : ¬ (threads ≥ TAPP_THREADS) := by omega
  simp only [Nat.sub_zero, zero_add] at h2 h3
  refine ⟨?_, ?_⟩
  · simp [tapp_spawn, hnot, h1]
  · simp only [tapp_spawn, hnot, if_false, h1, Bool.false_eq_true, h2]
    rw [spawn_cancel_trace]
    simp only [h3, List.range_eq_range', List.nil_append]

/-! ## The claims -/

/-- Claim C1: in any pass of `tapp_loop` (any loop state `s` with the flag clear),
if the probes before position `j = pre.length` returned only Progress or
WouldBlock and the probe at position `j` returns a status `r` that is neither,
then the loop returns exactly `r`, and what the pass appended to the trace is the
pass marker, probe calls at positions below `j`, and the call at `j`: no probe
after `j` is invoked and no further pass is started. -/
theorem tapp_loop_first_hard_error_wins {σ : Type} (idle_usec idle_limit : Nat)
    (pre post : List (tapp_func_t σ)) (f : tapp_func_t σ) (usleep : usleep_t σ)
    (fuel : Nat) (s : LoopSt σ) (r : tlibc_error_code_t)
    (hterm : s.env.g_tapp_sigterm = false)
    (hpre : (tapp_scan pre 0 E_TLIBC_WOULD_BLOCK
              { s with trace := s.trace ++ [LoopEvent.pass] }).1 = E_TLIBC_NOERROR ∨
            (tapp_scan pre 0 E_TLIBC_WOULD_BLOCK
              { s with trace := s.trace ++ [LoopEvent.pass] }).1 = E_TLIBC_WOULD_BLOCK)
    (hr : (f (tapp_scan pre 0 E_TLIBC_WOULD_BLOCK
              { s with trace := s.trace ++ [LoopEvent.pass] }).2.env).1 = r)
    (hne : r ≠ E_TLIBC_NOERROR) (hwb : r ≠ E_TLIBC_WOULD_BLOCK) :
    ∃ evs : List LoopEvent,
      (∀ ev ∈ evs, ∃ p q, ev = LoopEvent.probe p q ∧ p < pre.length) ∧
      tapp_loop_from idle_usec idle_limit (pre ++ f :: post) usleep (fuel + 1) s =
        Run.returned r (tapp_done
          { env := (f (tapp_scan pre 0 E_TLIBC_WOULD_BLOCK
              { s with trace := s.trace ++ [LoopEvent.pass] }).2.env).2,
            idle_count := s.idle_count,
            trace := s.trace ++ LoopEvent.pass :: evs ++ [LoopEvent.probe pre.length r] }) :=
  tapp_loop_from_hard idle_usec idle_limit pre post f usleep fuel s r hterm hpre hr hne hwb

/-- Witness for C1: a Progress probe, then a failing probe, then a probe that is
never reached. -/
theorem tapp_loop_first_hard_error_wins_witness :
    ∃ evs : List LoopEvent,
      (∀ ev ∈ evs, ∃ p q, ev = LoopEvent.probe p q ∧ p < [busy_probe].length) ∧
      tapp_loop_from 10 3 ([busy_probe] ++ failing_probe :: [idle_probe]) (usleep_term_at 0) 1
          { env := env0, idle_count := 0, trace := [] } =
        Run.returned (other 7) (tapp_done
          { env := env0, idle_count := 0,
            trace := [] ++ LoopEvent.pass :: evs ++ [LoopEvent.probe [busy_probe].length (other 7)] }) :=
  tapp_loop_first_hard_error_wins 10 3 [busy_probe] [idle_probe] failing_probe
    (usleep_term_at 0) 0 { env := env0, idle_count := 0, trace := [] } (other 7)
    rfl (Or.inl rfl) rfl (by decide) (by decide)

/-- Claim C2 (the code at the failing input): with 3 threads requested and
`pthread_create` failing at index 1, `tapp_spawn` returns `E_TLIBC_ERRNO` with the
flag set, after one successful creation and two joins: slot 0 and slot 1, whose
thread was never started. -/
theorem tapp_spawn_joins_failed_slot :
    tapp_spawn 8 (pthread_fail_at 1) 3 (fun _ => E_TLIBC_NOERROR) env0 =
      (E_TLIBC_ERRNO,
        { env := { env0 with g_tapp_sigterm := true }, tid_vec_num := 2,
          trace := [ThreadEvent.create 0 true, ThreadEvent.create 1 false,
                    ThreadEvent.join 0, ThreadEvent.join 1] }) := by
  rfl

/-- Claim C3: for every `threads ≥ TAPP_THREADS`, the bound itself included,
`tapp_spawn` returns `E_TLIBC_OUT_OF_MEMORY` with an empty trace (no thread created,
none joined) and the program state untouched. -/
theorem tapp_spawn_over_capacity {σ : Type} (TAPP_THREADS : Nat) (pt : Pthread σ)
    (threads : Nat) (func : Nat → tlibc_error_code_t) (e : Env σ)
    (h : threads ≥ TAPP_THREADS) :
    tapp_spawn TAPP_THREADS pt threads func e =
      (E_TLIBC_OUT_OF_MEMORY, { env := e, tid_vec_num := 0, trace := [] }) := by
  simp [tapp_spawn, h]

/-- Witness for C3: `threads` equal to the bound. -/
theorem tapp_spawn_over_capacity_witness :
    8 ≥ 8 ∧ tapp_spawn 8 pthread_ok 8 (fun _ => E_TLIBC_NOERROR) env0 =
      (E_TLIBC_OUT_OF_MEMORY, { env := env0, tid_vec_num := 0, trace := [] }) :=
  ⟨by decide, tapp_spawn_over_capacity 8 pthread_ok 8 (fun _ => E_TLIBC_NOERROR) env0 (by decide)⟩

/-- Claim C4: for `threads < TAPP_THREADS` (a bound that fits the 16-bit counter
`tid_vec_num`) and all creations succeeding, `tapp_spawn` creates slots
`0..threads-1` and then joins them in the same order; it returns success when every
worker returned success, and otherwise the status of the failing worker with the
highest id; the flag is set when some worker failed (no thread clearing it). -/
theorem tapp_spawn_joins_all_last_failure_wins {σ : Type} (TAPP_THREADS : Nat)
    (pt : Pthread σ) (threads : Nat) (func : Nat → tlibc_error_code_t) (e : Env σ)
    (hcap : TAPP_THREADS ≤ 2 ^ 16) (hN : threads < TAPP_THREADS)
    (hc : ∀ i, i < threads → ∀ e1, (pt.pthread_create i e1).1 = true) :
    (tapp_spawn TAPP_THREADS pt threads func e).2.trace =
      (List.range threads).map (fun i => ThreadEvent.create i true) ++
        (List.range threads).map ThreadEvent.join ∧
    ((∀ i, i < threads → func i = E_TLIBC_NOERROR) →
      (tapp_spawn TAPP_THREADS pt threads func e).1 = E_TLIBC_NOERROR) ∧
    (∀ k, k < threads → func k ≠ E_TLIBC_NOERROR →
      (∀ j, k < j → j < threads → func j = E_TLIBC_NOERROR) →
      (tapp_spawn TAPP_THREADS pt threads func e).1 = func k) ∧
    ((∀ i e1, e1.g_tapp_sigterm = true → (pt.pthread_join i e1).g_tapp_sigterm = true) →
      (∃ k, k < threads ∧ func k ≠ E_TLIBC_NOERROR) →
      (tapp_spawn TAPP_THREADS pt threads func e).2.env.g_tapp_sigterm = true) := by
  obtain ⟨hs, htr⟩ := tapp_spawn_all_started TAPP_THREADS pt threads func e hcap hN hc
  have hmod : ∀ j, j < threads → j % 2 ^ 32 = j := fun j hj =>
    Nat.mod_eq_of_lt (by omega)
  rw [hs]
  refine ⟨?_, ?_, ?_, ?_⟩
  · rw [spawn_join_trace, htr, List.range_eq_range']
  · intro hall
    exact spawn_join_all_ok pt func threads 0 _ _
      (fun j _ hj => by rw [hmod j (by omega)]; exact hall j (by omega))
  · intro k hk hne hlast
    have h := spawn_join_last pt func k (by rw [hmod k hk]; exact hne) threads 0
      E_TLIBC_NOERROR (spawn_create pt threads 0 { env := e, tid_vec_num := 0, trace := [] }).2
      (Nat.zero_le _) (by omega)
      (fun j hj1 hj2 => by rw [hmod j (by omega)]; exact hlast j hj1 (by omega))
    rw [h, hmod k hk]
  · intro hj hex
    obtain ⟨k, hk, hne⟩ := hex
    exact spawn_join_term pt func hj threads 0 _ _
      (Or.inr ⟨k, Nat.zero_le _, by omega, by rw [hmod k hk]; exact hne⟩)

/-- Witness for C4: four workers, worker 2 fails with `other 5`. -/
theorem tapp_spawn_joins_all_last_failure_wins_witness :
    (8 ≤ 2 ^ 16 ∧ 4 < 8) ∧
    (tapp_spawn 8 pthread_ok 4 (fun i => if i = 2 then other 5 else E_TLIBC_NOERROR) env0).1 =
      other 5 :=
  ⟨⟨by norm_num, by norm_num⟩,
    (tapp_spawn_joins_all_last_failure_wins 8 pthread_ok 4
      (fun i => if i = 2 then other 5 else E_TLIBC_NOERROR) env0 (by norm_num) (by norm_num)
      (fun _ _ _ => rfl)).2.2.1 2 (by norm_num) (by decide)
      (fun j h1 h2 => by
        have h3 : j = 3 := by omega
        subst h3
        rfl)⟩

/-- Claim C5: whenever `tapp_loop` returns, by whatever exit path and whatever the
probes and `usleep` do, `g_tapp_sigterm` is true in the resulting state; and a loop
entered with the flag already true returns `E_TLIBC_NOERROR` at once, with an empty
trace (no probe invoked) and the state unchanged. -/
theorem tapp_loop_returns_with_terminate_set {σ : Type} (idle_usec idle_limit : Nat)
    (probes : List (tapp_func_t σ)) (usleep : usleep_t σ) :
    (∀ (fuel : Nat) (e : Env σ) (ret : tlibc_error_code_t) (s1 : LoopSt σ),
      tapp_loop idle_usec idle_limit probes usleep fuel e = Run.returned ret s1 →
      s1.env.g_tapp_sigterm = true) ∧
    (∀ (fuel : Nat) (e : Env σ), e.g_tapp_sigterm = true →
      tapp_loop idle_usec idle_limit probes usleep fuel e =
        Run.returned E_TLIBC_NOERROR { env := e, idle_count := 0, trace := [] }) := by
  refine ⟨fun fuel e ret s1 h => ?_, fun fuel e h => ?_⟩
  · exact tapp_loop_from_returned_term idle_usec idle_limit probes usleep fuel _ ret s1 h
  · have h1 := tapp_loop_from_of_term idle_usec idle_limit probes usleep fuel
      { env := e, idle_count := 0, trace := [] } h
    rw [tapp_done_of_term _ h] at h1
    exact h1

/-- Witness for C5: the idle run stopped during its second sleep, and a run entered
with the flag set. -/
theorem tapp_loop_returns_with_terminate_set_witness :
    (idle_run_final 10).env.g_tapp_sigterm = true ∧
    tapp_loop 10 3 [idle_probe] (usleep_term_at 2) 0 { env0 with g_tapp_sigterm := true } =
      Run.returned E_TLIBC_NOERROR
        { env := { env0 with g_tapp_sigterm := true }, idle_count := 0, trace := [] } :=
  ⟨(tapp_loop_returns_with_terminate_set 10 3 [idle_probe] (usleep_term_at 2)).1 6 env0
      E_TLIBC_NOERROR (idle_run_final 10) rfl,
   (tapp_loop_returns_with_terminate_set 10 3 [idle_probe] (usleep_term_at 2)).2 0
      { env0 with g_tapp_sigterm := true } rfl⟩

/-- Counterexample to C6 as stated: with `idle_limit = 0` the loop completes one pass
before its first sleep, not zero. -/
theorem idle_limit_zero_sleeps_after_one_pass :
    sleep_gaps (tapp_loop 10 0 [idle_probe] (usleep_term_at 1) 1 env0).trace 0 = [1] ∧
    ¬ (∀ g ∈ sleep_gaps (tapp_loop 10 0 [idle_probe] (usleep_term_at 1) 1 env0).trace 0,
        g = 0) := by
  have h : sleep_gaps (tapp_loop 10 0 [idle_probe] (usleep_term_at 1) 1 env0).trace 0 = [1] :=
    rfl
  refine ⟨h, ?_⟩
  rw [h]
  simp

/-- Claim C6, amended: when every probe always returns WouldBlock, no pass ends as
Progress, and the number of passes before the first sleep and between two
consecutive sleeps is `max 1 idle_limit`: `idle_limit` when it is at least 1, and 1
when it is 0.  When `idle_limit` fits the 32-bit counter the sleeps do occur: a
loop still running after `fuel` passes has slept `fuel / max 1 idle_limit` times. -/
theorem tapp_loop_idle_passes_between_sleeps {σ : Type} (idle_usec idle_limit : Nat)
    (probes : List (tapp_func_t σ)) (usleep : usleep_t σ)
    (hwb : ∀ f ∈ probes, ∀ e, (f e).1 = E_TLIBC_WOULD_BLOCK) :
    (∀ s : LoopSt σ, (tapp_scan probes 0 E_TLIBC_WOULD_BLOCK s).1 = E_TLIBC_WOULD_BLOCK) ∧
    (∀ (fuel : Nat) (e : Env σ),
      ∀ g ∈ sleep_gaps (tapp_loop idle_usec idle_limit probes usleep fuel e).trace 0,
        g = max 1 idle_limit) ∧
    (idle_limit < 2 ^ 32 → ∀ (fuel : Nat) (e : Env σ) (s1 : LoopSt σ),
      tapp_loop idle_usec idle_limit probes usleep fuel e = Run.running s1 →
      sleep_calls s1.trace = fuel / max 1 idle_limit) := by
  have hinit : ∀ e : Env σ,
      IdleInv idle_limit ({ env := e, idle_count := 0, trace := [] } : LoopSt σ) := by
    intro e
    refine ⟨by simp [sleep_gaps], fun _ => ⟨?_, rfl, by simp [sleep_calls, pass_calls]⟩⟩
    exact lt_of_lt_of_le Nat.zero_lt_one (le_max_left _ _)
  refine ⟨fun s => tapp_scan_all_would_block probes hwb 0 _ s, fun fuel e => ?_,
    fun hL fuel e s1 h => ?_⟩
  · exact (tapp_loop_from_idle idle_usec idle_limit probes usleep hwb fuel _ (hinit e)).1
  · obtain ⟨hinv, hpc⟩ :=
      (tapp_loop_from_idle idle_usec idle_limit probes usleep hwb fuel _ (hinit e)).2 s1 h
    obtain ⟨i1, _, i3⟩ := hinv.2 hL
    simp only [pass_calls, zero_add] at hpc
    rw [hpc] at i3
    have hpos : 0 < max 1 idle_limit := lt_of_lt_of_le Nat.zero_lt_one (le_max_left _ _)
    rw [← i3, Nat.mul_comm, Nat.mul_add_div hpos, Nat.div_eq_of_lt i1]
    rfl

/-- Witness for C6: `idle_limit = 3` with one idle probe; the run sleeps after
passes 3 and 6. -/
theorem tapp_loop_idle_passes_between_sleeps_witness :
    sleep_gaps (tapp_loop 10 3 [idle_probe] (usleep_term_at 2) 6 env0).trace 0 = [3, 3] ∧
    (3 : Nat) = max 1 3 :=
  ⟨rfl,
   (tapp_loop_idle_passes_between_sleeps 10 3 [idle_probe] (usleep_term_at 2)
      (fun f hf e => by
        rw [List.mem_singleton.mp hf]
        rfl)).2.1 6 env0 3 (by decide)⟩

/-- Counterexample to C7 as stated: in the scenario the loop returns success after
six invocations of the probe, not fewer than four. -/
theorem second_sleep_comes_after_six_passes :
    tapp_loop 10 3 [idle_probe] (usleep_term_at 2) 6 env0 =
      Run.returned E_TLIBC_NOERROR (idle_run_final 10) ∧
    ¬ (probe_calls (tapp_loop 10 3 [idle_probe] (usleep_term_at 2) 6 env0).trace < 4) := by
  have h : tapp_loop 10 3 [idle_probe] (usleep_term_at 2) 6 env0 =
      Run.returned E_TLIBC_NOERROR (idle_run_final 10) := rfl
  refine ⟨h, ?_⟩
  rw [h]
  decide

/-- Claim C7, amended: with `idle_limit = 3`, one probe that always returns
WouldBlock, the flag initially clear and set during the second (successful) sleep,
`tapp_loop` returns success with the flag set, having invoked the probe exactly 6
times and slept exactly twice (three passes before each sleep); more fuel changes
nothing, so no seventh pass is started. -/
theorem tapp_loop_stops_after_second_sleep (idle_usec k : Nat) :
    tapp_loop idle_usec 3 [idle_probe] (usleep_term_at 2) (k + 6) env0 =
      Run.returned E_TLIBC_NOERROR (idle_run_final idle_usec) ∧
    probe_calls (idle_run_final idle_usec).trace = 6 ∧
    pass_calls (idle_run_final idle_usec).trace = 6 ∧
    sleep_calls (idle_run_final idle_usec).trace = 2 ∧
    (idle_run_final idle_usec).env.g_tapp_sigterm = true := by
  refine ⟨?_, rfl, rfl, rfl, rfl⟩
  cases k <;> rfl

/-- Counterexample to C8 as stated: one worker that returns WouldBlock makes
`tapp_spawn` return WouldBlock to its caller. -/
theorem tapp_spawn_returns_would_block :
    (tapp_spawn 8 pthread_ok 1 (fun _ => E_TLIBC_WOULD_BLOCK) env0).1 = E_TLIBC_WOULD_BLOCK := by
  rfl

/-- Claim C8, amended: `tapp_loop` never returns WouldBlock, and a probe status that
is neither success nor WouldBlock is returned by the loop unmodified.  `tapp_spawn`
absorbs nothing: when all threads start, what it returns is success or the
unmodified status of a worker that did not return success, namely of the last such
worker in join order, WouldBlock included. -/
theorem would_block_absorbed_by_loop_only {σ : Type} :
    (∀ (idle_usec idle_limit : Nat) (probes : List (tapp_func_t σ)) (usleep : usleep_t σ)
        (fuel : Nat) (e : Env σ) (ret : tlibc_error_code_t) (s1 : LoopSt σ),
      tapp_loop idle_usec idle_limit probes usleep fuel e = Run.returned ret s1 →
      ret ≠ E_TLIBC_WOULD_BLOCK) ∧
    (∀ (idle_usec idle_limit : Nat) (pre post : List (tapp_func_t σ)) (f : tapp_func_t σ)
        (usleep : usleep_t σ) (fuel : Nat) (s : LoopSt σ) (r : tlibc_error_code_t),
      s.env.g_tapp_sigterm = false →
      ((tapp_scan pre 0 E_TLIBC_WOULD_BLOCK
          { s with trace := s.trace ++ [LoopEvent.pass] }).1 = E_TLIBC_NOERROR ∨
        (tapp_scan pre 0 E_TLIBC_WOULD_BLOCK
          { s with trace := s.trace ++ [LoopEvent.pass] }).1 = E_TLIBC_WOULD_BLOCK) →
      (f (tapp_scan pre 0 E_TLIBC_WOULD_BLOCK
          { s with trace := s.trace ++ [LoopEvent.pass] }).2.env).1 = r →
      r ≠ E_TLIBC_NOERROR → r ≠ E_TLIBC_WOULD_BLOCK →
      ∃ s1, tapp_loop_from idle_usec idle_limit (pre ++ f :: post) usleep (fuel + 1) s =
        Run.returned r s1) ∧
    (∀ (TAPP_THREADS : Nat) (pt : Pthread σ) (threads : Nat)
        (func : Nat → tlibc_error_code_t) (e : Env σ),
      TAPP_THREADS ≤ 2 ^ 16 → threads < TAPP_THREADS →
      (∀ i, i < threads → ∀ e1, (pt.pthread_create i e1).1 = true) →
      ((tapp_spawn TAPP_THREADS pt threads func e).1 = E_TLIBC_NOERROR ∨
        ∃ k, k < threads ∧ func k ≠ E_TLIBC_NOERROR ∧
          (tapp_spawn TAPP_THREADS pt threads func e).1 = func k) ∧
      (∀ k, k < threads → func k ≠ E_TLIBC_NOERROR →
        (∀ j, k < j → j < threads → func j = E_TLIBC_NOERROR) →
        (tapp_spawn TAPP_THREADS pt threads func e).1 = func k)) := by
  refine ⟨?_, ?_, ?_⟩
  · intro idle_usec idle_limit probes usleep fuel e ret s1 h
    exact tapp_loop_from_ne_would_block idle_usec idle_limit probes usleep fuel _ ret s1 h
  · intro idle_usec idle_limit pre post f usleep fuel s r hterm hpre hr hne hwb
    obtain ⟨evs, _, h⟩ :=
      tapp_loop_from_hard idle_usec idle_limit pre post f usleep fuel s r hterm hpre hr hne hwb
    exact ⟨_, h⟩
  · intro TAPP_THREADS pt threads func e hcap hN hc
    obtain ⟨hs, _⟩ := tapp_spawn_all_started TAPP_THREADS pt threads func e hcap hN hc
    have hmod : ∀ j, j < threads → j % 2 ^ 32 = j := fun j hj =>
      Nat.mod_eq_of_lt (by omega)
    rw [hs]
    refine ⟨?_, ?_⟩
    · rcases spawn_join_ret_cases pt func threads 0 E_TLIBC_NOERROR
          (spawn_create pt threads 0 { env := e, tid_vec_num := 0, trace := [] }).2
        with h | ⟨k, _, hk, hne, h⟩
      · exact Or.inl h
      · have hk1 : k < threads := by omega
        rw [hmod k hk1] at hne h
        exact Or.inr ⟨k, hk1, hne, h⟩
    · intro k hk hne hlast
      have h := spawn_join_last pt func k (by rw [hmod k hk]; exact hne) threads 0
        E_TLIBC_NOERROR
        (spawn_create pt threads 0 { env := e, tid_vec_num := 0, trace := [] }).2
        (Nat.zero_le _) (by omega)
        (fun j hj1 hj2 => by rw [hmod j (by omega)]; exact hlast j hj1 (by omega))
      rw [h, hmod k hk]

/-- Witness for C8: a loop whose probe fails with `other 7` returns `other 7`, which
is not WouldBlock; two workers, the second returning WouldBlock. -/
theorem would_block_absorbed_by_loop_only_witness :
    other 7 ≠ E_TLIBC_WOULD_BLOCK ∧
    (tapp_spawn 8 pthread_ok 2
      (fun i => if i = 1 then E_TLIBC_WOULD_BLOCK else E_TLIBC_NOERROR) env0).1 =
      E_TLIBC_WOULD_BLOCK :=
  ⟨(@would_block_absorbed_by_loop_only Nat).1 10 3 [failing_probe] (usleep_term_at 0) 1 env0
      (other 7)
      (tapp_done { env := env0, idle_count := 0,
                   trace := [LoopEvent.pass, LoopEvent.probe 0 (other 7)] }) rfl,
   ((@would_block_absorbed_by_loop_only Nat).2.2 8 pthread_ok 2
      (fun i => if i = 1 then E_TLIBC_WOULD_BLOCK else E_TLIBC_NOERROR) env0
      (by norm_num) (by norm_num) (fun _ _ _ => rfl)).2 1 (by norm_num) (by decide)
      (fun j h1 h2 => by omega)⟩

/-- Claim C9: the three flags are monotone under the core.  `on_signal` sets
`g_tapp_sigterm` on SIGINT and SIGTERM, `g_tapp_sigusr1` on SIGUSR1,
`g_tapp_sigusr2` on SIGUSR2, changes nothing else, and changes nothing at all on any
other signal.  `tapp_loop` and `tapp_spawn` never clear a flag: when the functions
they call (probes and `usleep`, `pthread_create` and `pthread_join`) leave set flags
set, every flag set before the call is set in the state they end in. -/
theorem flags_are_monotone {σ : Type} :
    (∀ (sig : Int) (e : Env σ),
      FlagsLe e (on_signal sig e) ∧
      (sig = SIGINT ∨ sig = SIGTERM → on_signal sig e = { e with g_tapp_sigterm := true }) ∧
      (sig = SIGUSR1 → on_signal sig e = { e with g_tapp_sigusr1 := true }) ∧
      (sig = SIGUSR2 → on_signal sig e = { e with g_tapp_sigusr2 := true }) ∧
      (sig ≠ SIGINT → sig ≠ SIGTERM → sig ≠ SIGUSR1 → sig ≠ SIGUSR2 →
        on_signal sig e = e)) ∧
    (∀ (idle_usec idle_limit : Nat) (probes : List (tapp_func_t σ)) (usleep : usleep_t σ),
      (∀ f ∈ probes, ∀ e, FlagsLe e (f e).2) →
      (∀ u e, FlagsLe e (usleep u e).2) →
      ∀ (fuel : Nat) (e : Env σ),
        FlagsLe e (tapp_loop idle_usec idle_limit probes usleep fuel e).env) ∧
    (∀ (TAPP_THREADS : Nat) (pt : Pthread σ) (threads : Nat)
        (func : Nat → tlibc_error_code_t),
      (∀ i e, FlagsLe e (pt.pthread_create i e).2) →
      (∀ i e, FlagsLe e (pt.pthread_join i e)) →
      ∀ e : Env σ, FlagsLe e (tapp_spawn TAPP_THREADS pt threads func e).2.env) := by
  refine ⟨fun sig e => ⟨?_, ?_, ?_, ?_, ?_⟩, ?_, ?_⟩
  · simp only [on_signal]
    split_ifs
    · exact FlagsLe.set_term e
    · exact ⟨id, fun _ => rfl, id⟩
    · exact ⟨id, id, fun _ => rfl⟩
    · exact FlagsLe.refl e
  · intro h
    simp [on_signal, h]
  · intro h
    subst h
    simp [on_signal, SIGUSR1, SIGINT, SIGTERM]
  · intro h
    subst h
    simp [on_signal, SIGUSR2, SIGUSR1, SIGINT, SIGTERM]
  · intro h1 h2 h3 h4
    simp [on_signal, h1, h2, h3, h4]
  · intro idle_usec idle_limit probes usleep hp hu fuel e
    exact tapp_loop_from_mono idle_usec idle_limit probes usleep hp hu fuel
      { env := e, idle_count := 0, trace := [] }
  · intro TAPP_THREADS pt threads func hc hj e
    exact tapp_spawn_mono TAPP_THREADS pt threads func hc hj e

/-- Witness for C9: SIGUSR1 delivered with `g_tapp_sigusr2` set, the idle run, and
a launch of four workers. -/
theorem flags_are_monotone_witness :
    on_signal SIGUSR1 { env0 with g_tapp_sigusr2 := true } =
      { env0 with g_tapp_sigusr1 := true, g_tapp_sigusr2 := true } ∧
    FlagsLe env0 (tapp_loop 10 3 [idle_probe] (usleep_term_at 2) 6 env0).env ∧
    FlagsLe env0 (tapp_spawn 8 pthread_ok 4 (fun _ => E_TLIBC_NOERROR) env0).2.env :=
  ⟨((@flags_are_monotone Nat).1 SIGUSR1 { env0 with g_tapp_sigusr2 := true }).2.2.1 rfl,
   (@flags_are_monotone Nat).2.1 10 3 [idle_probe] (usleep_term_at 2)
      (fun f hf e => by
        rw [List.mem_singleton.mp hf]
        exact FlagsLe.refl e)
      (fun u e => ⟨fun h => by simp [usleep_term_at, h], id, id⟩) 6 env0,
   (@flags_are_monotone Nat).2.2 8 pthread_ok 4 (fun _ => E_TLIBC_NOERROR)
      (fun _ e => FlagsLe.refl e) (fun _ e => FlagsLe.refl e) env0⟩

/-- Counterexample to C10 as stated: in the second pass of this run probe 0 returns
Progress and probe 1 then fails; the loop leaves with the idle counter still at 1,
not 0. -/
theorem progress_then_error_keeps_idle_count :
    tapp_loop 0 5 [warming_probe, late_failing_probe] (usleep_term_at 0) 1 env0 =
      Run.running after_idle_pass ∧
    LoopEvent.probe 0 E_TLIBC_NOERROR ∈
      ((tapp_body 0 5 [warming_probe, late_failing_probe] (usleep_term_at 0)
        after_idle_pass).2.trace).drop after_idle_pass.trace.length ∧
    (tapp_body 0 5 [warming_probe, late_failing_probe] (usleep_term_at 0)
      after_idle_pass).1 = some (other 7) ∧
    (tapp_body 0 5 [warming_probe, late_failing_probe] (usleep_term_at 0)
      after_idle_pass).2.idle_count = 1 ∧
    ¬ ((tapp_body 0 5 [warming_probe, late_failing_probe] (usleep_term_at 0)
      after_idle_pass).2.idle_count = 0) := by
  refine ⟨rfl, ?_, rfl, rfl, ?_⟩
  · decide
  · decide

/-- Claim C10, amended: in every pass in which some probe returns Progress the loop
does not sleep; if moreover no probe of that pass returns an error status, the
loop goes on with the idle counter at 0.  Otherwise the pass ended at a probe that
returned an error status `r`: the loop leaves with `r` and the idle counter as it
was before the pass. -/
theorem progress_pass_does_not_sleep {σ : Type} (idle_usec idle_limit : Nat)
    (probes : List (tapp_func_t σ)) (usleep : usleep_t σ) (s : LoopSt σ) (pos : Nat)
    (hprog : LoopEvent.probe pos E_TLIBC_NOERROR ∈
      ((tapp_body idle_usec idle_limit probes usleep s).2.trace).drop s.trace.length) :
    (∀ u, LoopEvent.sleep u ∉
      ((tapp_body idle_usec idle_limit probes usleep s).2.trace).drop s.trace.length) ∧
    ((∀ p q, LoopEvent.probe p q ∈
        ((tapp_body idle_usec idle_limit probes usleep s).2.trace).drop s.trace.length →
        q = E_TLIBC_NOERROR ∨ q = E_TLIBC_WOULD_BLOCK) →
      (tapp_body idle_usec idle_limit probes usleep s).1 = none ∧
      (tapp_body idle_usec idle_limit probes usleep s).2.idle_count = 0) ∧
    (((tapp_body idle_usec idle_limit probes usleep s).1 = none ∧
        (tapp_body idle_usec idle_limit probes usleep s).2.idle_count = 0) ∨
      ∃ r, r ≠ E_TLIBC_NOERROR ∧ r ≠ E_TLIBC_WOULD_BLOCK ∧
        (tapp_body idle_usec idle_limit probes usleep s).1 = some r ∧
        (tapp_body idle_usec idle_limit probes usleep s).2.idle_count = s.idle_count ∧
        ∃ p, LoopEvent.probe p r ∈
          ((tapp_body idle_usec idle_limit probes usleep s).2.trace).drop s.trace.length) := by
  obtain ⟨evs, hev, hcase⟩ := tapp_body_shape idle_usec idle_limit probes usleep s
  have hnosleep : ∀ u, LoopEvent.sleep u ∉ LoopEvent.pass :: evs := by
    intro u hm
    rcases List.mem_cons.mp hm with h | h
    · cases h
    · obtain ⟨p, q, he⟩ := hev _ h
      cases he
  rcases hcase with ⟨h1, h2, h3, _, h5⟩ | ⟨h1, h2⟩ | ⟨r, hr1, hr2, h1, h2, h3, p, hp⟩
  · rw [h3, List.drop_left] at hprog ⊢
    exact ⟨hnosleep, fun _ => ⟨h1, h2⟩, Or.inl ⟨h1, h2⟩⟩
  · exfalso
    have hin : LoopEvent.probe pos E_TLIBC_NOERROR ∈ evs := by
      rcases h2 with h2 | h2
      · rw [h2, List.drop_left] at hprog
        rcases List.mem_cons.mp hprog with h | h
        · cases h
        · exact h
      · rw [h2, List.append_assoc, List.drop_left] at hprog
        rcases List.mem_append.mp hprog with h | h
        · rcases List.mem_cons.mp h with h | h
          · cases h
          · exact h
        · cases List.mem_singleton.mp h
    exact absurd (h1 pos _ hin) (by simp)
  · rw [h3, List.drop_left] at hprog ⊢
    refine ⟨hnosleep, fun hall => ?_, Or.inr ⟨r, hr1, hr2, h1, h2, p, List.mem_cons_of_mem _ hp⟩⟩
    rcases hall p r (List.mem_cons_of_mem _ hp) with h | h
    · exact absurd h hr1
    · exact absurd h hr2

/-- Witness for C10: a pass over a Progress probe and an idle probe. -/
theorem progress_pass_does_not_sleep_witness :
    (tapp_body 10 1 [busy_probe, idle_probe] (usleep_term_at 0) after_idle_pass).1 = none ∧
    (tapp_body 10 1 [busy_probe, idle_probe] (usleep_term_at 0)
      after_idle_pass).2.idle_count = 0 :=
  (progress_pass_does_not_sleep 10 1 [busy_probe, idle_probe] (usleep_term_at 0)
    after_idle_pass 0 (by decide)).2.1 (by
      intro p q h
      have h2 : LoopEvent.probe p q ∈ [LoopEvent.pass, LoopEvent.probe 0 E_TLIBC_NOERROR,
          LoopEvent.probe 1 E_TLIBC_WOULD_BLOCK] := h
      simp only [List.mem_cons, List.mem_singleton, LoopEvent.probe.injEq, List.not_mem_nil,
        or_false, reduceCtorEq, false_or] at h2
      rcases h2 with ⟨_, h3⟩ | ⟨_, h3⟩
      · exact Or.inl h3
      · exact Or.inr h3)

end TApp
